import Mathlib

/-!
Shallow embedding of the Loan Lifecycle & Wallet Ledger engine of the
p2p-lending-platform repository (Django application under `src/apps/`).

Modelling conventions:
* Money (`DecimalField(decimal_places=2)` columns and Python `Decimal`
  amounts) is embedded as exact rationals `ℚ`.  Python `Decimal`
  arithmetic runs in a 28-significant-digit context; on every concrete
  input used in the theorems below all intermediate values are exact in
  that context, so the rational embedding coincides with the code.
* Django model rows live in plain lists inside a `St` (database state)
  record.  A Django model instance held in a Python variable is a
  *snapshot*: `obj.field += x; obj.save()` writes `snapshot.field + x`
  back to the row, which the embedding reproduces by passing the
  snapshot value to the row update (this is observable when two
  snapshots of the same row are written one after the other).
* `transaction.atomic()` blocks that finish by a normal `return`
  commit; the services in this repository signal failure by returning
  `{'success': False}` (not by raising), so mutations made before such
  an early return remain visible, and the embedding keeps them.
* Users are identified by primary key (`Nat`); Django `User.__eq__`
  compares primary keys.  The acting user's `role` column is passed
  alongside the id where the code reads it.
* `timezone.now()` / `date.today()` are modelled by an explicit clock
  argument of type `Date` (calendar precision suffices for every field
  the claims touch).
-/

/-- Calendar date, as Python `datetime.date`: ordered lexicographically
by (year, month, day). -/
structure Date where
  year : Nat
  month : Nat
  day : Nat

deriving DecidableEq

/-- Python `date.__lt__`: lexicographic comparison. -/
def Date.before (a b : Date) : Bool :=
  a.year < b.year ∨
    (a.year = b.year ∧ (a.month < b.month ∨ (a.month = b.month ∧ a.day < b.day)))

/-- Gregorian leap year test (`calendar.isleap`). -/
def isLeapYear (y : Nat) : Bool :=
  y % 4 = 0 ∧ (y % 100 ≠ 0 ∨ y % 400 = 0)

/-- Days in a month of the proleptic Gregorian calendar. -/
def daysInMonth (y m : Nat) : Nat :=
  if m = 2 then (if isLeapYear y then 29 else 28)
  else if m = 4 ∨ m = 6 ∨ m = 9 ∨ m = 11 then 30
  else 31

/-- `dateutil.relativedelta(months=k)` addition: advance `k` calendar
months, preserving the day-of-month but clipping at the target month's
end. -/
def Date.addMonths (d : Date) (k : Nat) : Date :=
  let t := (d.month - 1) + k
  let y := d.year + t / 12
  let m := t % 12 + 1
  { year := y, month := m, day := min d.day (daysInMonth y m) }

/-- Round a rational to an integer, ties to the even neighbour: the
`ROUND_HALF_EVEN` default rounding of Python's `decimal` context. -/
def roundHalfEvenInt (x : ℚ) : ℤ :=
  let f := ⌊x⌋
  let frac := x - (f : ℚ)
  if frac < 1/2 then f
  else if 1/2 < frac then f + 1
  else if f % 2 = 0 then f else f + 1

/-- `Decimal.quantize(Decimal('0.01'))` with the default context:
round to 2 decimal places, ties to even. -/
def quantize2HalfEven (x : ℚ) : ℚ :=
  (roundHalfEvenInt (x * 100) : ℚ) / 100

/-- Round a rational to an integer, ties away from zero: Python's
`ROUND_HALF_UP` mode, named by the spec.  (Modelled from the spec for
comparison with the code's rounding; the source never selects it.) -/
def roundHalfUpInt (x : ℚ) : ℤ :=
  if 0 ≤ x then ⌊x + 1/2⌋ else -⌊-x + 1/2⌋

/-- Round-half-up to 2 decimal places (spec's stated rounding rule). -/
def quantize2HalfUp (x : ℚ) : ℚ :=
  (roundHalfUpInt (x * 100) : ℚ) / 100

/-- `Loan.monthly_payment` (src/apps/loans/models.py lines 36-47):
amortized monthly payment.  `term_months = 0` guards division by zero;
zero monthly rate falls back to straight division (no quantize); the
amortization formula result is quantized to 2 places with the context
default rounding (half-even). -/
def monthlyPayment (amount : ℚ) (annualInterestRate : ℚ) (termMonths : Nat) : ℚ :=
  if termMonths = 0 then 0
  else
    let monthlyRate := annualInterestRate / 100 / 12
    if monthlyRate = 0 then amount / termMonths
    else
      quantize2HalfEven
        ((amount * monthlyRate * (1 + monthlyRate) ^ termMonths) /
          ((1 + monthlyRate) ^ termMonths - 1))

/-- Modelled from the spec (§4.1): the amortization formula "rounded to
2 decimal places using round-half-up", the rule the spec names.  Used
only to compare the spec's stated rounding with the code's. -/
def specMonthlyPaymentHalfUp (amount : ℚ) (annualInterestRate : ℚ) (termMonths : Nat) : ℚ :=
  let r := annualInterestRate / 100 / 12
  if r = 0 then amount / termMonths
  else
    quantize2HalfUp
      ((amount * r * (1 + r) ^ termMonths) / ((1 + r) ^ termMonths - 1))

/-- Modelled from the spec (§4.1) with the rounding rule replaced by
the code's actual half-even quantization, for the amended claim. -/
def specMonthlyPaymentHalfEven (amount : ℚ) (annualInterestRate : ℚ) (termMonths : Nat) : ℚ :=
  let r := annualInterestRate / 100 / 12
  if r = 0 then amount / termMonths
  else
    quantize2HalfEven
      ((amount * r * (1 + r) ^ termMonths) / ((1 + r) ^ termMonths - 1))

/-! ## Data model (src/apps/users/models.py, wallets/models.py, loans/models.py) -/

/-- `User.role` column (`ROLE_CHOICES`). -/
inductive Role where
  | BORROWER
  | LENDER

deriving DecidableEq

/-- The acting authenticated user: the primary key plus the `role`
column, the two pieces of the `User` row that the core reads. -/
structure User where
  id : Nat
  role : Role

deriving DecidableEq

/-- `Transaction.transaction_type` column (`TRANSACTION_TYPES`). -/
inductive TxKind where
  | DEPOSIT
  | WITHDRAWAL
  | LOAN_FUNDING
  | LOAN_PAYMENT
  | PLATFORM_FEE

deriving DecidableEq

/-- `Wallet` row: one per user, balance defaulting to 0.  (`created_at`
and `updated_at` timestamps are not read by any core operation and are
omitted.) -/
structure Wallet where
  userId : Nat
  balance : ℚ

deriving DecidableEq

/-- `Transaction` row (the ledger entry).  The free-text `description`
column is never read back by the core and is omitted. -/
structure Txn where
  walletUserId : Nat
  kind : TxKind
  amount : ℚ
  referenceId : Option String

deriving DecidableEq

/-- `Loan.status` column (`STATUS_CHOICES`). -/
inductive LoanStatus where
  | REQUESTED
  | PENDING_FUNDING
  | FUNDED
  | COMPLETED
  | CANCELLED

deriving DecidableEq

/-- `Loan` row.  `purpose` and the audit timestamps are never read by
the core and are omitted. -/
structure Loan where
  id : Nat
  borrower : Nat
  lender : Option Nat
  amount : ℚ
  termMonths : Nat
  annualInterestRate : ℚ
  status : LoanStatus
  fundedAt : Option Date

deriving DecidableEq

/-- `Offer` row. -/
structure Offer where
  id : Nat
  loanId : Nat
  lenderId : Nat
  annualInterestRate : ℚ
  accepted : Bool

deriving DecidableEq

/-- `Payment.status` column (`STATUS_CHOICES`). -/
inductive PaymentStatus where
  | PENDING
  | PAID
  | OVERDUE

deriving DecidableEq

/-- `Payment` row. -/
structure Payment where
  id : Nat
  loanId : Nat
  paymentNumber : Nat
  dueDate : Date
  amount : ℚ
  status : PaymentStatus
  paidAt : Option Date

deriving DecidableEq

/-- The durable store: the five tables the core touches, plus the
auto-increment counters for the rows the core itself inserts. -/
structure St where
  wallets : List Wallet
  txns : List Txn
  loans : List Loan
  offers : List Offer
  payments : List Payment
  nextPaymentId : Nat
  nextOfferId : Nat

deriving DecidableEq

/-! ## WalletRepository / TransactionRepository (src/apps/wallets/repositories.py) -/

/-- `WalletRepository.get_wallet_by_user`. -/
def get_wallet_by_user (s : St) (u : Nat) : Option Wallet :=
  s.wallets.find? fun w => w.userId = u

/-- `WalletRepository.get_or_create_wallet`: `Wallet.objects.get_or_create`,
creating a wallet with the default balance 0 when absent. -/
def get_or_create_wallet (s : St) (u : Nat) : St × Wallet :=
  match get_wallet_by_user s u with
  | some w => (s, w)
  | none =>
    let w : Wallet := { userId := u, balance := 0 }
    ({ s with wallets := s.wallets ++ [w] }, w)

/-- `update_balance`'s `operation` string argument (only `'add'` and
`'subtract'` are ever passed). -/
inductive BalanceOp where
  | add
  | subtract

deriving DecidableEq

/-- `WalletRepository.update_balance`: mutates the passed instance's
balance and saves it.  The write stores the *snapshot's* balance plus
or minus the amount — not the row's current balance — which is what
`wallet.balance += amount; wallet.save()` does. -/
def update_balance (s : St) (w : Wallet) (amount : ℚ) (op : BalanceOp) : St :=
  let newBalance := match op with
    | .add => w.balance + amount
    | .subtract => w.balance - amount
  { s with
      wallets := s.wallets.map fun x =>
        if x.userId = w.userId then { x with balance := newBalance } else x }

/-- `WalletRepository.has_sufficient_balance`: `balance >= amount`. -/
def has_sufficient_balance (w : Wallet) (amount : ℚ) : Bool :=
  amount ≤ w.balance

/-- `TransactionRepository.create_transaction`: appends one immutable
ledger row. -/
def create_transaction (s : St) (walletUserId : Nat) (kind : TxKind)
    (amount : ℚ) (refId : Option String) : St :=
  { s with
      txns := s.txns ++ [{ walletUserId := walletUserId, kind := kind,
                           amount := amount, referenceId := refId }] }

/-! ## WalletService (src/apps/wallets/services.py)

Failure is signalled by returning `{'success': False, 'error': ...}`;
the embedding returns `Except String` payloads, the `ok` payload being
the `new_balance` values the service reports. -/

/-- `WalletService.deposit_funds`. -/
def deposit_funds (s : St) (u : Nat) (amount : ℚ) : St × Except String ℚ :=
  let p := get_or_create_wallet s u
  let s2 := update_balance p.1 p.2 amount .add
  let s3 := create_transaction s2 u .DEPOSIT amount none
  (s3, .ok (p.2.balance + amount))

/-- `WalletService.withdraw_funds`.  The ledger row records the
*positive* amount (only `transfer_funds` and `deduct_platform_fee`
negate). -/
def withdraw_funds (s : St) (u : Nat) (amount : ℚ) : St × Except String ℚ :=
  match get_wallet_by_user s u with
  | none => (s, .error "Wallet not found")
  | some w =>
    if has_sufficient_balance w amount then
      let s2 := update_balance s w amount .subtract
      let s3 := create_transaction s2 u .WITHDRAWAL amount none
      (s3, .ok (w.balance - amount))
    else (s, .error "Insufficient funds")

/-- `WalletService.transfer_funds` (lines 70-111): reads the sender's
wallet, gets-or-creates the receiver's, checks the sender's balance,
applies both balance writes from the two snapshots, and appends the
paired ledger rows (negative on the sender, positive on the receiver,
sharing `reference_id`). -/
def transfer_funds (s : St) (fromUser toUser : Nat) (amount : ℚ)
    (kind : TxKind) (refId : Option String) : St × Except String (ℚ × ℚ) :=
  let fromW? := get_wallet_by_user s fromUser
  let p := get_or_create_wallet s toUser
  match fromW? with
  | none => (p.1, .error "Sender wallet not found")
  | some fromW =>
    if has_sufficient_balance fromW amount then
      let s2 := update_balance p.1 fromW amount .subtract
      let s3 := update_balance s2 p.2 amount .add
      let s4 := create_transaction s3 fromUser kind (-amount) refId
      let s5 := create_transaction s4 toUser kind amount refId
      (s5, .ok (fromW.balance - amount, p.2.balance + amount))
    else (p.1, .error "Insufficient funds")

/-- `WalletService.deduct_platform_fee`: withdraw tagged `PLATFORM_FEE`,
recording a single *negative* ledger row carrying `reference_id`. -/
def deduct_platform_fee (s : St) (u : Nat) (amount : ℚ)
    (refId : Option String) : St × Except String ℚ :=
  match get_wallet_by_user s u with
  | none => (s, .error "Wallet not found")
  | some w =>
    if has_sufficient_balance w amount then
      let s2 := update_balance s w amount .subtract
      let s3 := create_transaction s2 u .PLATFORM_FEE (-amount) refId
      (s3, .ok (w.balance - amount))
    else (s, .error "Insufficient funds for platform fee")

/-- `WalletService.check_balance`: truthy iff the wallet exists and has
the required balance. -/
def check_balance (s : St) (u : Nat) (required : ℚ) : Bool :=
  match get_wallet_by_user s u with
  | none => false
  | some w => has_sufficient_balance w required

/-! ## LoanRepository / OfferRepository / PaymentRepository
(src/apps/loans/repositories.py) -/

/-- `LoanRepository.get_loan_by_id`. -/
def get_loan_by_id (s : St) (loanId : Nat) : Option Loan :=
  s.loans.find? fun l => l.id = loanId

/-- `LoanRepository.update_loan`: sets the given fields on the instance
and saves, i.e. the row becomes the passed snapshot with its updates. -/
def update_loan_row (s : St) (l : Loan) : St :=
  { s with loans := s.loans.map fun x => if x.id = l.id then l else x }

/-- `OfferRepository.get_offer_by_id`. -/
def get_offer_by_id (s : St) (offerId : Nat) : Option Offer :=
  s.offers.find? fun o => o.id = offerId

/-- `OfferRepository.check_existing_offer`: does this lender already
have an offer on this loan. -/
def check_existing_offer (s : St) (loanId lenderId : Nat) : Bool :=
  s.offers.any fun o => o.loanId = loanId ∧ o.lenderId = lenderId

/-- First element of minimal `payment_number` (what
`order_by('payment_number').first()` returns; `(loan, payment_number)`
is unique, so ties do not arise on real data). -/
def minByPaymentNumber : List Payment → Option Payment
  | [] => none
  | p :: ps =>
    match minByPaymentNumber ps with
    | none => some p
    | some q => if p.paymentNumber ≤ q.paymentNumber then some p else some q

/-- `PaymentRepository.get_next_pending_payment`: the lowest-numbered
PENDING payment of the loan. -/
def get_next_pending_payment (s : St) (loanId : Nat) : Option Payment :=
  minByPaymentNumber
    (s.payments.filter fun p => p.loanId = loanId ∧ p.status = .PENDING)

/-- `PaymentRepository.get_overdue_payments` (and the identical filter
in the Celery task): PENDING payments with `due_date < today`. -/
def overduePred (today : Date) (p : Payment) : Bool :=
  p.status = .PENDING ∧ p.dueDate.before today

/-- `PaymentRepository.mark_payment_as_paid` / `Payment.mark_as_paid`:
status PAID, `paid_at = now`, saved from the passed snapshot. -/
def mark_payment_as_paid (s : St) (p : Payment) (now : Date) : St :=
  { s with
      payments := s.payments.map fun x =>
        if x.id = p.id then { p with status := .PAID, paidAt := some now } else x }

/-- The dict `PaymentRepository.get_all_payments_for_loan_status`
returns. -/
structure LoanPaymentCounts where
  total : Nat
  paid : Nat
  remaining : Nat
  all_paid : Bool

deriving DecidableEq

/-- `PaymentRepository.get_all_payments_for_loan_status`: counts of the
loan's payments and whether every one of them is PAID (and at least one
exists). -/
def get_all_payments_for_loan_status (s : St) (loanId : Nat) : LoanPaymentCounts :=
  let ps := s.payments.filter fun p => p.loanId = loanId
  let total := ps.length
  let paid := (ps.filter fun p => p.status = .PAID).length
  { total := total, paid := paid, remaining := total - paid,
    all_paid := paid = total ∧ total > 0 }

/-! ## Payment.generate_payment_schedule (src/apps/loans/models.py
lines 101-121) -/

/-- The rows `Payment.generate_payment_schedule` builds: numbers
`1..termMonths`, due `fundingDate + relativedelta(months=i)`, each for
the loan's monthly payment, all PENDING.  Ids are assigned by the
store's auto-increment counter starting at `firstId`. -/
def schedulePayments (loan : Loan) (fundingDate : Date) (firstId : Nat) : List Payment :=
  (List.range loan.termMonths).map fun i =>
    { id := firstId + i
      loanId := loan.id
      paymentNumber := i + 1
      dueDate := fundingDate.addMonths (i + 1)
      amount := monthlyPayment loan.amount loan.annualInterestRate loan.termMonths
      status := .PENDING
      paidAt := none }

/-- `Payment.generate_payment_schedule`: bulk-creates the schedule,
based at the loan's funding date when set, else today. -/
def generate_payment_schedule (s : St) (loan : Loan) (today : Date) : St :=
  let fundingDate := loan.fundedAt.getD today
  { s with
      payments := s.payments ++ schedulePayments loan fundingDate s.nextPaymentId
      nextPaymentId := s.nextPaymentId + loan.termMonths }

/-! ## OfferService (src/apps/loans/services.py lines 91-154) -/

/-- `OfferService.create_offer` (lines 96-116): role, existence, state,
self-offer and duplicate guards, then one inserted row with
`accepted = False`. -/
def create_offer (s : St) (loanId : Nat) (lender : User)
    (annualInterestRate : ℚ) : St × Except String Offer :=
  if lender.role ≠ .LENDER then (s, .error "Only lenders can make offers")
  else
    match get_loan_by_id s loanId with
    | none => (s, .error "Loan not found")
    | some loan =>
      if loan.status ≠ .REQUESTED then
        (s, .error "Loan is not available for offers")
      else if loan.borrower = lender.id then
        (s, .error "Cannot make offer on your own loan")
      else if check_existing_offer s loan.id lender.id then
        (s, .error "You have already made an offer on this loan")
      else
        let o : Offer := { id := s.nextOfferId, loanId := loan.id,
                           lenderId := lender.id,
                           annualInterestRate := annualInterestRate,
                           accepted := false }
        ({ s with offers := s.offers ++ [o], nextOfferId := s.nextOfferId + 1 },
         .ok o)

/-- The `create_offer` HTTP operation (src/apps/loans/views.py lines
113-132): the view's role guard, then `CreateOfferSerializer`'s rate
bounds (`validate_annual_interest_rate`: 0 ≤ rate ≤ 50), then the
service. -/
def create_offer_endpoint (s : St) (loanId : Nat) (caller : User)
    (annualInterestRate : ℚ) : St × Except String Offer :=
  if caller.role ≠ .LENDER then (s, .error "Only lenders can make offers")
  else if annualInterestRate < 0 then
    (s, .error "Interest rate cannot be negative")
  else if 50 < annualInterestRate then
    (s, .error "Interest rate cannot exceed 50%")
  else create_offer s loanId caller annualInterestRate

/-- `OfferService.accept_offer` (lines 124-154): ownership, state,
offer existence/ownership and un-accepted guards; on success marks the
offer accepted and rewrites the loan with the offer's lender and rate
and status PENDING_FUNDING. -/
def accept_offer (s : St) (loanId offerId : Nat) (borrower : Nat) :
    St × Except String Unit :=
  match get_loan_by_id s loanId with
  | none => (s, .error "Loan not found")
  | some loan =>
    if loan.borrower ≠ borrower then
      (s, .error "You can only accept offers on your own loans")
    else if loan.status ≠ .REQUESTED then
      (s, .error "Loan is not available for offer acceptance")
    else
      match get_offer_by_id s offerId with
      | none => (s, .error "Offer not found")
      | some offer =>
        if offer.loanId ≠ loan.id then (s, .error "Offer not found")
        else if offer.accepted then (s, .error "Offer has already been accepted")
        else
          let s1 := { s with
                        offers := s.offers.map fun x =>
                          if x.id = offer.id then { offer with accepted := true }
                          else x }
          let s2 := update_loan_row s1
            { loan with lender := some offer.lenderId,
                        annualInterestRate := offer.annualInterestRate,
                        status := .PENDING_FUNDING }
          (s2, .ok ())

/-! ## LoanFundingService (src/apps/loans/services.py lines 157-238)

`PLATFORM_FUNDING_FEE` is a fixed configuration value (the settings
module is not part of the core); it is a parameter here. -/

/-- `LoanFundingService.fund_loan` (lines 163-238).  The four
precondition failures are raised before any mutation.  The two early
`return {'success': False}` branches inside `transaction.atomic()`
commit what was already written (a normal return does not roll back);
they are unreachable when the platform fee is non-negative, because the
up-front `check_balance` for `amount + fee` already covers both
debits. -/
def fund_loan (platformFee : ℚ) (now : Date) (s : St) (loanId : Nat)
    (lender : Nat) : St × Except String Loan :=
  match get_loan_by_id s loanId with
  | none => (s, .error "Loan not found")
  | some loan =>
    if loan.lender ≠ some lender then
      (s, .error "You are not the assigned lender for this loan")
    else if loan.status ≠ .PENDING_FUNDING then
      (s, .error "Loan is not ready for funding")
    else
      let totalNeeded := loan.amount + platformFee
      if ¬ check_balance s lender totalNeeded then
        (s, .error "Insufficient funds")
      else
        let tr := transfer_funds s lender loan.borrower loan.amount
          .LOAN_FUNDING (some ("loan_" ++ toString loan.id))
        match tr.2 with
        | .error e => (tr.1, .error e)
        | .ok _ =>
          let fr := deduct_platform_fee tr.1 lender platformFee
            (some ("loan_" ++ toString loan.id ++ "_fee"))
          match fr.2 with
          | .error e => (fr.1, .error e)
          | .ok _ =>
            let loan1 := { loan with status := .FUNDED, fundedAt := some now }
            let s3 := update_loan_row fr.1 loan1
            let s4 := generate_payment_schedule s3 loan1 now
            (s4, .ok loan1)

/-! ## PaymentService (src/apps/loans/services.py lines 241-309) -/

/-- `PaymentService.make_payment` (lines 247-295).  A FUNDED loan
whose `lender` column were NULL would crash
`get_or_create_wallet(None)` inside the atomic block, which rolls back
and leaves the store unchanged; the embedding returns an error for that
(unreachable) case.  The returned payload is the paid payment row and
the `loan_completed` flag. -/
def make_payment (now : Date) (s : St) (loanId : Nat) (borrower : Nat) :
    St × Except String (Payment × Bool) :=
  match get_loan_by_id s loanId with
  | none => (s, .error "Loan not found")
  | some loan =>
    if loan.borrower ≠ borrower then
      (s, .error "You can only make payments on your own loans")
    else if loan.status ≠ .FUNDED then
      (s, .error "Loan is not in a state where payments can be made")
    else
      match get_next_pending_payment s loan.id with
      | none => (s, .error "No pending payments found")
      | some nextPayment =>
        if ¬ check_balance s borrower nextPayment.amount then
          (s, .error "Insufficient funds for payment")
        else
          match loan.lender with
          | none => (s, .error "IntegrityError: loan has no lender")
          | some lender =>
            let tr := transfer_funds s borrower lender nextPayment.amount
              .LOAN_PAYMENT (some ("payment_" ++ toString nextPayment.id))
            match tr.2 with
            | .error e => (tr.1, .error e)
            | .ok _ =>
              let s2 := mark_payment_as_paid tr.1 nextPayment now
              let counts := get_all_payments_for_loan_status s2 loan.id
              let s3 :=
                if counts.all_paid then
                  update_loan_row s2 { loan with status := .COMPLETED }
                else s2
              (s3, .ok ({ nextPayment with status := .PAID, paidAt := some now },
                        counts.all_paid))

/-! ## OverdueSweep (src/apps/loans/tasks.py lines 17-96) -/

/-- The summary `check_overdue_payments` returns (of the fields in its
result dict, those that describe the sweep's work). -/
structure SweepSummary where
  overdue_payments_found : Nat
  payments_marked_overdue : Nat

deriving DecidableEq

/-- `check_overdue_payments`: selects PENDING payments past due,
marks each OVERDUE (status-only save), and reports how many it found
and updated; an empty selection short-circuits with zero counts. -/
def check_overdue_payments (today : Date) (s : St) : St × SweepSummary :=
  let overdue := s.payments.filter (overduePred today)
  let total := overdue.length
  if total = 0 then (s, { overdue_payments_found := 0, payments_marked_overdue := 0 })
  else
    ({ s with
         payments := s.payments.map fun p =>
           if overduePred today p then { p with status := .OVERDUE } else p },
     { overdue_payments_found := total, payments_marked_overdue := total })

/-! ## Operation alphabet for trace properties -/

/-- One core operation, with the actor, clock and configuration values
it reads. -/
inductive Op where
  | deposit (u : Nat) (amount : ℚ)
  | withdraw (u : Nat) (amount : ℚ)
  | transfer (fromUser toUser : Nat) (amount : ℚ) (kind : TxKind) (refId : Option String)
  | deductFee (u : Nat) (amount : ℚ) (refId : Option String)
  | createOffer (loanId : Nat) (caller : User) (rate : ℚ)
  | acceptOffer (loanId offerId borrower : Nat)
  | fundLoan (platformFee : ℚ) (now : Date) (loanId lender : Nat)
  | makePayment (now : Date) (loanId borrower : Nat)
  | sweep (today : Date)

deriving DecidableEq

/-- Apply one core operation to the store, ignoring its result. -/
def applyOp (s : St) : Op → St
  | .deposit u amount => (deposit_funds s u amount).1
  | .withdraw u amount => (withdraw_funds s u amount).1
  | .transfer fromUser toUser amount kind refId =>
      (transfer_funds s fromUser toUser amount kind refId).1
  | .deductFee u amount refId => (deduct_platform_fee s u amount refId).1
  | .createOffer loanId caller rate =>
      (create_offer_endpoint s loanId caller rate).1
  | .acceptOffer loanId offerId borrower =>
      (accept_offer s loanId offerId borrower).1
  | .fundLoan platformFee now loanId lender =>
      (fund_loan platformFee now s loanId lender).1
  | .makePayment now loanId borrower => (make_payment now s loanId borrower).1
  | .sweep today => (check_overdue_payments today s).1

/-- Apply a sequence of core operations in order. -/
def applyOps (s : St) (ops : List Op) : St :=
  ops.foldl applyOp s

/-! ## Observers -/

/-- The balance a re-read of the user's wallet row reports. -/
def walletBalance (s : St) (u : Nat) : Option ℚ :=
  (get_wallet_by_user s u).map Wallet.balance

/-- The payment rows belonging to a loan. -/
def paymentsForLoan (s : St) (loanId : Nat) : List Payment :=
  s.payments.filter fun p => p.loanId = loanId

/-- Sum of the signed amounts of a list of ledger rows. -/
def txnSum (l : List Txn) : ℚ :=
  l.foldr (fun t acc => t.amount + acc) 0

/-- Sum of the signed amounts of the ledger rows carrying a given
`reference_id`. -/
def refSum (r : String) (l : List Txn) : ℚ :=
  txnSum (l.filter fun t => t.referenceId = some r)

/-- Sum of the signed amounts of the PLATFORM_FEE ledger rows carrying
a given `reference_id`. -/
def feeRefSum (r : String) (l : List Txn) : ℚ :=
  txnSum (l.filter fun t => t.referenceId = some r ∧ t.kind = .PLATFORM_FEE)

/-! ## Wallet lemmas -/

/-- The balance `update_balance` writes (from the snapshot `w`). -/
def writtenBalance (w : Wallet) (amount : ℚ) : BalanceOp → ℚ
  | .add => w.balance + amount
  | .subtract => w.balance - amount

/-- A two-wallet store used for the concrete instances below. -/
def wSt1 : St :=
  { wallets := [{ userId := 1, balance := 100 }, { userId := 2, balance := 5 }],
    txns := [], loans := [], offers := [], payments := [],
    nextPaymentId := 1, nextOfferId := 1 }

/-- Every wallet row in the store has a non-negative balance. -/
def WalletsNonNeg (s : St) : Prop :=
  ∀ w ∈ s.wallets, 0 ≤ w.balance

instance (s : St) : Decidable (WalletsNonNeg s) :=
  List.decidableBAll _ s.wallets

/-- The call failed: the store is untouched and a `{'success': False}`
(or serializer/permission) error came back. -/
def offerCallFails (s : St) (r : St × Except String Offer) : Prop :=
  r.1 = s ∧ ∃ e, r.2 = Except.error e

/-- The per-row update the sweep performs. -/
def sweepRow (today : Date) (p : Payment) : Payment :=
  if overduePred today p then { p with status := .OVERDUE } else p

/-- `PaymentRepository.get_payment_by_id`. -/
def get_payment_by_id (s : St) (paymentId : Nat) : Option Payment :=
  s.payments.find? fun p => p.id = paymentId

/-- A FUNDED loan (borrower 1, lender 2) with a two-installment
schedule, used by the concrete instances below. -/
def loanF1 : Loan :=
  { id := 1, borrower := 1, lender := some 2, amount := 100, termMonths := 2,
    annualInterestRate := 0, status := .FUNDED,
    fundedAt := some { year := 2024, month := 1, day := 15 } }

/-- Store holding `loanF1`, its two PENDING payments of 50 and funded
wallets. -/
def pSt : St :=
  { wallets := [{ userId := 1, balance := 100 }, { userId := 2, balance := 0 }],
    txns := [],
    loans := [loanF1],
    offers := [],
    payments :=
      [{ id := 10, loanId := 1, paymentNumber := 1,
         dueDate := { year := 2024, month := 2, day := 15 }, amount := 50,
         status := .PENDING, paidAt := none },
       { id := 11, loanId := 1, paymentNumber := 2,
         dueDate := { year := 2024, month := 3, day := 15 }, amount := 50,
         status := .PENDING, paidAt := none }],
    nextPaymentId := 12, nextOfferId := 1 }

/-- The clock value used by the concrete instances. -/
def day0 : Date := { year := 2024, month := 6, day := 1 }

/-- A PENDING_FUNDING loan (borrower 1, lender 2 assigned) awaiting
funding. -/
def loanPF : Loan :=
  { id := 2, borrower := 1, lender := some 2, amount := 100, termMonths := 2,
    annualInterestRate := 0, status := .PENDING_FUNDING, fundedAt := none }

/-- Store holding `loanPF` with a well-funded lender wallet. -/
def fSt : St :=
  { wallets := [{ userId := 1, balance := 0 }, { userId := 2, balance := 500 }],
    txns := [], loans := [loanPF], offers := [], payments := [],
    nextPaymentId := 1, nextOfferId := 1 }

/-- The ledger invariant the operations actually maintain: for every
referenceId, the total signed sum equals the platform-fee contribution
(so referenceIds with no fee entry sum to zero). -/
def RefSumInv (s : St) : Prop :=
  ∀ r : String, refSum r s.txns = feeRefSum r s.txns

/-- A balanced (delta) list: refSum matches feeRefSum for every r. -/
def BalancedDelta (d : List Txn) : Prop :=
  ∀ r : String, refSum r d = feeRefSum r d

/-- The status of the loan row with the given id, as a re-read
reports it. -/
def loanStatusOf (s : St) (i : Nat) : Option LoanStatus :=
  (get_loan_by_id s i).map Loan.status

/-- Well-formedness the store's auto-increment guarantees: payment ids
are unique and below the next id to be handed out. -/
def PaymentsWF (s : St) : Prop :=
  (s.payments.map Payment.id).Nodup ∧
  ∀ p ∈ s.payments, p.id < s.nextPaymentId

/-- Some payment of loan `L` is OVERDUE. -/
def OverdueWitness (L : Nat) (s : St) : Prop :=
  ∃ p ∈ s.payments, p.loanId = L ∧ p.status = PaymentStatus.OVERDUE

/-- Loan `L` is not COMPLETED (or absent). -/
def NotCompleted (L : Nat) (s : St) : Prop :=
  loanStatusOf s L ≠ some LoanStatus.COMPLETED

instance (s : St) : Decidable (PaymentsWF s) := by
  unfold PaymentsWF
  infer_instance

instance (L : Nat) (s : St) : Decidable (OverdueWitness L s) := by
  unfold OverdueWitness
  infer_instance

instance (L : Nat) (s : St) : Decidable (NotCompleted L s) := by
  unfold NotCompleted
  infer_instance

/-- The invariant C10 propagates: the store's payment ids are
well-formed, some payment of loan `L` is OVERDUE, and loan `L` is not
COMPLETED. -/
def C10Inv (L : Nat) (s : St) : Prop :=
  PaymentsWF s ∧ OverdueWitness L s ∧ NotCompleted L s

instance (L : Nat) (s : St) : Decidable (C10Inv L s) := by
  unfold C10Inv
  infer_instance

/-- A store with a FUNDED loan 1 (borrower 1, lender 2) whose only
payment is OVERDUE. -/
def c10St : St :=
  { wallets := [{ userId := 1, balance := 100 }, { userId := 2, balance := 0 }],
    txns := [],
    loans := [loanF1],
    offers := [],
    payments :=
      [{ id := 10, loanId := 1, paymentNumber := 1,
         dueDate := { year := 2024, month := 2, day := 15 }, amount := 50,
         status := .OVERDUE, paidAt := none }],
    nextPaymentId := 11, nextOfferId := 1 }

/-- `OfferService.accept_offer` with the reads and the writes against
possibly different store states: every `get_` and every guard reads
`sread`, the two writes inside `transaction.atomic()` apply to
`swrite`.  `accept_offer_at s s` is exactly `accept_offer s`
(`accept_offer_at_seq`); with `sread` an earlier state it is one
committed interleaving of two concurrent calls under READ COMMITTED,
where both calls' SELECTs run before either one's COMMIT. -/
def accept_offer_at (sread swrite : St) (loanId offerId : Nat)
    (borrower : Nat) : St × Except String Unit :=
  match get_loan_by_id sread loanId with
  | none => (swrite, .error "Loan not found")
  | some loan =>
    if loan.borrower ≠ borrower then
      (swrite, .error "You can only accept offers on your own loans")
    else if loan.status ≠ .REQUESTED then
      (swrite, .error "Loan is not available for offer acceptance")
    else
      match get_offer_by_id sread offerId with
      | none => (swrite, .error "Offer not found")
      | some offer =>
        if offer.loanId ≠ loan.id then (swrite, .error "Offer not found")
        else if offer.accepted then (swrite, .error "Offer has already been accepted")
        else
          let s1 := { swrite with
                        offers := swrite.offers.map fun x =>
                          if x.id = offer.id then { offer with accepted := true }
                          else x }
          let s2 := update_loan_row s1
            { loan with lender := some offer.lenderId,
                        annualInterestRate := offer.annualInterestRate,
                        status := .PENDING_FUNDING }
          (s2, .ok ())

/-- A REQUESTED loan of borrower 1 with two open offers: offer 1 from
lender 2 at 5%, offer 2 from lender 3 at 7%. -/
def rSt : St :=
  { wallets := [], txns := [],
    loans := [{ id := 1, borrower := 1, lender := none, amount := 100,
                termMonths := 6, annualInterestRate := 0,
                status := .REQUESTED, fundedAt := none }],
    offers := [{ id := 1, loanId := 1, lenderId := 2,
                 annualInterestRate := 5, accepted := false },
               { id := 2, loanId := 1, lenderId := 3,
                 annualInterestRate := 7, accepted := false }],
    payments := [], nextPaymentId := 1, nextOfferId := 3 }

theorem find?_userId_map (f : Wallet → Wallet)
    (hf : ∀ w, (f w).userId = w.userId) (l : List Wallet) (u : Nat) :
    ((l.map f).find? fun w => w.userId = u) =
      (l.find? fun w => w.userId = u).map f := by
  induction l with
  | nil => rfl
  | cons h t ih =>
    by_cases hu : h.userId = u
    · simp [List.find?, hf, hu]
    · simp [List.find?, hf, hu, ih]

theorem find?_userId_append (l1 l2 : List Wallet) (u : Nat) :
    ((l1 ++ l2).find? fun w => w.userId = u) =
      match l1.find? fun w => w.userId = u with
      | some w => some w
      | none => l2.find? fun w => w.userId = u := by
  induction l1 with
  | nil => rfl
  | cons h t ih =>
    by_cases hu : h.userId = u
    · simp [List.find?, hu]
    · simp [List.find?, hu, ih]

theorem get_wallet_update_balance (s : St) (w : Wallet) (a : ℚ)
    (op : BalanceOp) (u : Nat) :
    get_wallet_by_user (update_balance s w a op) u =
      (get_wallet_by_user s u).map fun x =>
        if u = w.userId then { x with balance := writtenBalance w a op } else x := by
  unfold get_wallet_by_user update_balance
  rw [find?_userId_map]
  · cases hf : s.wallets.find? fun x => x.userId = u with
    | none => rfl
    | some x =>
      have hx : x.userId = u := by
        have := List.find?_some hf
        simpa using this
      by_cases hc : u = w.userId
      · simp only [Option.map]
        simp [hx, hc, writtenBalance]
      · simp only [Option.map]
        simp [hx, hc]
  · intro x
    by_cases hc : x.userId = w.userId <;> simp [hc]

theorem walletBalance_update_balance (s : St) (w : Wallet) (a : ℚ)
    (op : BalanceOp) (u : Nat) :
    walletBalance (update_balance s w a op) u =
      if u = w.userId then (walletBalance s u).map fun _ => writtenBalance w a op
      else walletBalance s u := by
  unfold walletBalance
  rw [get_wallet_update_balance]
  cases get_wallet_by_user s u with
  | none => by_cases hc : u = w.userId <;> simp [hc]
  | some x => by_cases hc : u = w.userId <;> simp [hc]

theorem get_wallet_create_transaction (s : St) (wu : Nat) (k : TxKind)
    (a : ℚ) (r : Option String) (u : Nat) :
    get_wallet_by_user (create_transaction s wu k a r) u =
      get_wallet_by_user s u := rfl

theorem txns_update_balance (s : St) (w : Wallet) (a : ℚ) (op : BalanceOp) :
    (update_balance s w a op).txns = s.txns := rfl

theorem txns_create_transaction (s : St) (wu : Nat) (k : TxKind) (a : ℚ)
    (r : Option String) :
    (create_transaction s wu k a r).txns =
      s.txns ++ [{ walletUserId := wu, kind := k, amount := a, referenceId := r }] := rfl

/-- `get_or_create_wallet` leaves an existing row alone and returns it. -/
theorem get_or_create_wallet_of_found (s : St) (u : Nat) (w : Wallet)
    (h : get_wallet_by_user s u = some w) :
    get_or_create_wallet s u = (s, w) := by
  unfold get_or_create_wallet
  rw [h]

/-- `get_or_create_wallet` appends a zero-balance row when absent. -/
theorem get_or_create_wallet_of_absent (s : St) (u : Nat)
    (h : get_wallet_by_user s u = none) :
    get_or_create_wallet s u =
      ({ s with wallets := s.wallets ++ [{ userId := u, balance := 0 }] },
       { userId := u, balance := 0 }) := by
  unfold get_or_create_wallet
  rw [h]

theorem get_wallet_after_create (s : St) (u v : Nat) :
    get_wallet_by_user
        { s with wallets := s.wallets ++ [{ userId := u, balance := 0 }] } v =
      match get_wallet_by_user s v with
      | some w => some w
      | none => if u = v then some { userId := u, balance := 0 } else none := by
  unfold get_wallet_by_user
  rw [find?_userId_append]
  cases s.wallets.find? fun w => w.userId = v with
  | none =>
    by_cases hc : u = v <;> simp [List.find?, hc]
  | some w => rfl

theorem walletBalance_create (s : St) (u v : Nat) :
    walletBalance
        { s with wallets := s.wallets ++ [{ userId := u, balance := 0 }] } v =
      match walletBalance s v with
      | some b => some b
      | none => if u = v then some 0 else none := by
  unfold walletBalance
  rw [get_wallet_after_create]
  cases get_wallet_by_user s v with
  | none => by_cases hc : u = v <;> simp [hc]
  | some w => rfl

theorem get_wallet_by_user_userId (s : St) (u : Nat) (w : Wallet)
    (h : get_wallet_by_user s u = some w) : w.userId = u := by
  unfold get_wallet_by_user at h
  simpa using List.find?_some h

theorem walletBalance_create_transaction (s : St) (wu : Nat) (k : TxKind)
    (a : ℚ) (r : Option String) (u : Nat) :
    walletBalance (create_transaction s wu k a r) u = walletBalance s u := rfl

/-! ## Claim C1 -/

/-- Full effect of a sufficient-balance `transfer_funds` call between
distinct users: result value, both balances, and the appended ledger
pair.  (Shared helper; the C1 claim theorem below restates it.) -/
theorem transfer_funds_ok_effects (s : St) (fromUser toUser : Nat)
    (amount : ℚ) (kind : TxKind) (refId : Option String) (w : Wallet)
    (hne : fromUser ≠ toUser)
    (hw : get_wallet_by_user s fromUser = some w)
    (hs : has_sufficient_balance w amount = true) :
    (transfer_funds s fromUser toUser amount kind refId).2 =
        Except.ok (w.balance - amount, (walletBalance s toUser).getD 0 + amount) ∧
    walletBalance s fromUser = some w.balance ∧
    walletBalance (transfer_funds s fromUser toUser amount kind refId).1 fromUser =
        some (w.balance - amount) ∧
    walletBalance (transfer_funds s fromUser toUser amount kind refId).1 toUser =
        some ((walletBalance s toUser).getD 0 + amount) ∧
    (transfer_funds s fromUser toUser amount kind refId).1.txns =
        s.txns ++
          [{ walletUserId := fromUser, kind := kind, amount := -amount,
             referenceId := refId },
           { walletUserId := toUser, kind := kind, amount := amount,
             referenceId := refId }] ∧
    (-amount) + amount = 0 := by
  have hwu : w.userId = fromUser := get_wallet_by_user_userId s fromUser w hw
  have hwb : walletBalance s fromUser = some w.balance := by
    unfold walletBalance
    rw [hw]
    rfl
  cases hto : get_wallet_by_user s toUser with
  | some tw =>
    have htu : tw.userId = toUser := get_wallet_by_user_userId s toUser tw hto
    have htb : walletBalance s toUser = some tw.balance := by
      unfold walletBalance
      rw [hto]
      rfl
    simp only [transfer_funds, get_or_create_wallet, hto, hw, hs, if_true]
    refine ⟨by simp [htb], hwb, ?_, ?_, ?_, by ring⟩
    · rw [walletBalance_create_transaction, walletBalance_create_transaction,
        walletBalance_update_balance, walletBalance_update_balance]
      rw [htu, hwu]
      simp [hne, Ne.symm hne, hwb, writtenBalance]
    · rw [walletBalance_create_transaction, walletBalance_create_transaction,
        walletBalance_update_balance, walletBalance_update_balance]
      rw [htu, hwu]
      simp [hne, Ne.symm hne, htb, writtenBalance]
    · simp [txns_create_transaction, txns_update_balance]
  | none =>
    have htb : walletBalance s toUser = none := by
      unfold walletBalance
      rw [hto]
      rfl
    simp only [transfer_funds, get_or_create_wallet, hto, hw, hs, if_true]
    refine ⟨by simp [htb], hwb, ?_, ?_, ?_, by ring⟩
    · rw [walletBalance_create_transaction, walletBalance_create_transaction,
        walletBalance_update_balance, walletBalance_update_balance]
      simp only [hwu]
      rw [walletBalance_create]
      simp [hne, Ne.symm hne, hwb, htb, writtenBalance]
    · rw [walletBalance_create_transaction, walletBalance_create_transaction,
        walletBalance_update_balance, walletBalance_update_balance]
      simp only [hwu]
      rw [walletBalance_create]
      simp [hne, Ne.symm hne, htb, writtenBalance]
    · simp [txns_create_transaction, txns_update_balance]

/-- C1 (amended: for distinct sender and receiver).  A successful
`transfer_funds(from_user, to_user, amount, kind, referenceId)` call
with `from_user ≠ to_user` decreases the sender's balance by exactly
`amount`, increases the receiver's balance by exactly `amount` (from 0
for a freshly created receiver wallet), and appends exactly two ledger
rows sharing `referenceId` — `-amount` on the sender, `+amount` on the
receiver — whose signed amounts sum to zero. -/
theorem transfer_funds_conservation (s : St) (fromUser toUser : Nat)
    (amount : ℚ) (kind : TxKind) (refId : Option String) (w : Wallet)
    (hne : fromUser ≠ toUser)
    (hw : get_wallet_by_user s fromUser = some w)
    (hs : has_sufficient_balance w amount = true) :
    (transfer_funds s fromUser toUser amount kind refId).2 =
        Except.ok (w.balance - amount, (walletBalance s toUser).getD 0 + amount) ∧
    walletBalance s fromUser = some w.balance ∧
    walletBalance (transfer_funds s fromUser toUser amount kind refId).1 fromUser =
        some (w.balance - amount) ∧
    walletBalance (transfer_funds s fromUser toUser amount kind refId).1 toUser =
        some ((walletBalance s toUser).getD 0 + amount) ∧
    (transfer_funds s fromUser toUser amount kind refId).1.txns =
        s.txns ++
          [{ walletUserId := fromUser, kind := kind, amount := -amount,
             referenceId := refId },
           { walletUserId := toUser, kind := kind, amount := amount,
             referenceId := refId }] ∧
    (-amount) + amount = 0 :=
  transfer_funds_ok_effects s fromUser toUser amount kind refId w hne hw hs

/-- C1, counterexample to the claim as stated: a successful
`transfer_funds` call with `from_user = to_user` (user 1, balance 100,
amount 30).  The two balance writes are made from two pre-read
snapshots of the same row, so the later `+amount` write overwrites the
earlier `-amount` write: the sender's balance *rises* to 130 instead of
decreasing by 30. -/
theorem transfer_funds_self_counterexample :
    (transfer_funds wSt1 1 1 30 .LOAN_FUNDING (some "r")).2 =
        Except.ok ((70 : ℚ), (130 : ℚ)) ∧
    walletBalance (transfer_funds wSt1 1 1 30 .LOAN_FUNDING (some "r")).1 1 =
        some 130 ∧
    walletBalance (transfer_funds wSt1 1 1 30 .LOAN_FUNDING (some "r")).1 1 ≠
        some (100 - 30) := by
  refine ⟨?_, ?_, ?_⟩ <;>
    norm_num [transfer_funds, get_or_create_wallet, get_wallet_by_user,
      has_sufficient_balance, update_balance, create_transaction,
      walletBalance, wSt1, List.find?]

/-- C1 witness: the amended theorem applied at a concrete store
(user 1 holds 100, user 2 holds 5, transfer of 30). -/
theorem transfer_funds_conservation_witness :
    (transfer_funds wSt1 1 2 30 .LOAN_FUNDING (some "r")).2 =
        Except.ok ((100 : ℚ) - 30, (walletBalance wSt1 2).getD 0 + 30) ∧
    walletBalance wSt1 1 = some 100 ∧
    walletBalance (transfer_funds wSt1 1 2 30 .LOAN_FUNDING (some "r")).1 1 =
        some (100 - 30) ∧
    walletBalance (transfer_funds wSt1 1 2 30 .LOAN_FUNDING (some "r")).1 2 =
        some ((walletBalance wSt1 2).getD 0 + 30) ∧
    (transfer_funds wSt1 1 2 30 .LOAN_FUNDING (some "r")).1.txns =
        wSt1.txns ++
          [{ walletUserId := 1, kind := .LOAN_FUNDING, amount := -30,
             referenceId := some "r" },
           { walletUserId := 2, kind := .LOAN_FUNDING, amount := 30,
             referenceId := some "r" }] ∧
    (-(30 : ℚ)) + 30 = 0 :=
  transfer_funds_conservation wSt1 1 2 30 .LOAN_FUNDING (some "r")
    { userId := 1, balance := 100 } (by decide) (by decide) (by decide)

/-! ## Claim C4 -/

theorem get_wallet_by_user_mem (s : St) (u : Nat) (w : Wallet)
    (h : get_wallet_by_user s u = some w) : w ∈ s.wallets := by
  unfold get_wallet_by_user at h
  exact List.mem_of_find?_eq_some h

theorem WalletsNonNeg_update_balance (s : St) (w : Wallet) (a : ℚ)
    (op : BalanceOp) (hnn : WalletsNonNeg s)
    (hb : 0 ≤ writtenBalance w a op) :
    WalletsNonNeg (update_balance s w a op) := by
  intro x hx
  unfold update_balance at hx
  obtain ⟨y, hy, hxy⟩ := List.mem_map.mp hx
  by_cases hc : y.userId = w.userId
  · rw [← hxy, if_pos hc]
    exact hb
  · rw [← hxy, if_neg hc]
    exact hnn y hy

theorem WalletsNonNeg_create (s : St) (u : Nat) (hnn : WalletsNonNeg s) :
    WalletsNonNeg { s with wallets := s.wallets ++ [{ userId := u, balance := 0 }] } := by
  intro x hx
  simp only [List.mem_append, List.mem_singleton] at hx
  cases hx with
  | inl h => exact hnn x h
  | inr h => simp [h]

theorem WalletsNonNeg_of_wallets_eq (s1 s2 : St) (h : s1.wallets = s2.wallets)
    (hnn : WalletsNonNeg s2) : WalletsNonNeg s1 := by
  intro w hw
  rw [h] at hw
  exact hnn w hw

/-- C4 (amended: for non-negative amounts).  With any amount ≥ 0, each
`WalletService` operation preserves non-negativity of every wallet
balance, and `withdraw_funds`, `transfer_funds` and
`deduct_platform_fee` fail with their insufficient-funds error and
change no balance whenever the source wallet's balance is below the
amount.  (The claim's "any Decimal amount" is refuted by the negative-
amount counterexample; sign validation lives in the HTTP serializers,
outside these services.) -/
theorem wallet_ops_preserve_nonneg (s : St) (u fromUser toUser : Nat)
    (amount : ℚ) (kind : TxKind) (refId : Option String)
    (hamt : 0 ≤ amount) (hnn : WalletsNonNeg s) :
    WalletsNonNeg (deposit_funds s u amount).1 ∧
    WalletsNonNeg (withdraw_funds s u amount).1 ∧
    WalletsNonNeg (transfer_funds s fromUser toUser amount kind refId).1 ∧
    WalletsNonNeg (deduct_platform_fee s u amount refId).1 ∧
    WalletsNonNeg (get_or_create_wallet s u).1 ∧
    (∀ w, get_wallet_by_user s u = some w → w.balance < amount →
        withdraw_funds s u amount = (s, .error "Insufficient funds") ∧
        deduct_platform_fee s u amount refId =
          (s, .error "Insufficient funds for platform fee")) ∧
    (∀ w, get_wallet_by_user s fromUser = some w → w.balance < amount →
        (transfer_funds s fromUser toUser amount kind refId).2 =
          .error "Insufficient funds" ∧
        ∀ v, walletBalance (transfer_funds s fromUser toUser amount kind refId).1 v =
               walletBalance s v ∨
             (walletBalance s v = none ∧ v = toUser ∧
              walletBalance (transfer_funds s fromUser toUser amount kind refId).1 v =
                some 0)) := by
  refine ⟨?_, ?_, ?_, ?_, ?_, ?_, ?_⟩
  · -- deposit_funds
    cases hu : get_wallet_by_user s u with
    | some w =>
      have hwm := get_wallet_by_user_mem s u w hu
      simp only [deposit_funds, get_or_create_wallet, hu]
      exact WalletsNonNeg_of_wallets_eq _ _ rfl
        (WalletsNonNeg_update_balance s w amount .add hnn
          (add_nonneg (hnn w hwm) hamt))
    | none =>
      simp only [deposit_funds, get_or_create_wallet, hu]
      refine WalletsNonNeg_of_wallets_eq _ _ rfl
        (WalletsNonNeg_update_balance _ { userId := u, balance := 0 } amount .add
          (WalletsNonNeg_create s u hnn) ?_)
      show (0 : ℚ) ≤ 0 + amount
      simpa using hamt
  · -- withdraw_funds
    cases hu : get_wallet_by_user s u with
    | some w =>
      by_cases hsuf : has_sufficient_balance w amount
      · have hle : amount ≤ w.balance := by
          simpa [has_sufficient_balance] using hsuf
        simp only [withdraw_funds, hu, hsuf, if_true]
        exact WalletsNonNeg_of_wallets_eq _ _ rfl
          (WalletsNonNeg_update_balance s w amount .subtract hnn
            (sub_nonneg.mpr hle))
      · simp only [withdraw_funds, hu, hsuf, if_false]
        exact hnn
    | none =>
      simp only [withdraw_funds, hu]
      exact hnn
  · -- transfer_funds
    cases hf : get_wallet_by_user s fromUser with
    | some fw =>
      by_cases hsuf : has_sufficient_balance fw amount
      · have hle : amount ≤ fw.balance := by
          simpa [has_sufficient_balance] using hsuf
        cases ht : get_wallet_by_user s toUser with
        | some tw =>
          have htm := get_wallet_by_user_mem s toUser tw ht
          simp only [transfer_funds, get_or_create_wallet, hf, ht, hsuf, if_true]
          exact WalletsNonNeg_of_wallets_eq _ _ rfl
            (WalletsNonNeg_update_balance _ tw amount .add
              (WalletsNonNeg_update_balance s fw amount .subtract hnn
                (sub_nonneg.mpr hle))
              (add_nonneg (hnn tw htm) hamt))
        | none =>
          simp only [transfer_funds, get_or_create_wallet, hf, ht, hsuf, if_true]
          refine WalletsNonNeg_of_wallets_eq _ _ rfl
            (WalletsNonNeg_update_balance _ { userId := toUser, balance := 0 }
              amount .add
              (WalletsNonNeg_update_balance _ fw amount .subtract
                (WalletsNonNeg_create s toUser hnn)
                (sub_nonneg.mpr hle)) ?_)
          show (0 : ℚ) ≤ 0 + amount
          simpa using hamt
      · cases ht : get_wallet_by_user s toUser with
        | some tw =>
          simp only [transfer_funds, get_or_create_wallet, hf, ht, hsuf, if_false]
          exact hnn
        | none =>
          simp only [transfer_funds, get_or_create_wallet, hf, ht, hsuf, if_false]
          exact WalletsNonNeg_create s toUser hnn
    | none =>
      cases ht : get_wallet_by_user s toUser with
      | some tw =>
        simp only [transfer_funds, get_or_create_wallet, hf, ht]
        exact hnn
      | none =>
        simp only [transfer_funds, get_or_create_wallet, hf, ht]
        exact WalletsNonNeg_create s toUser hnn
  · -- deduct_platform_fee
    cases hu : get_wallet_by_user s u with
    | some w =>
      by_cases hsuf : has_sufficient_balance w amount
      · have hle : amount ≤ w.balance := by
          simpa [has_sufficient_balance] using hsuf
        simp only [deduct_platform_fee, hu, hsuf, if_true]
        exact WalletsNonNeg_of_wallets_eq _ _ rfl
          (WalletsNonNeg_update_balance s w amount .subtract hnn
            (sub_nonneg.mpr hle))
      · simp only [deduct_platform_fee, hu, hsuf, if_false]
        exact hnn
    | none =>
      simp only [deduct_platform_fee, hu]
      exact hnn
  · -- get_or_create_wallet
    cases hu : get_wallet_by_user s u with
    | some w =>
      simp only [get_or_create_wallet, hu]
      exact hnn
    | none =>
      simp only [get_or_create_wallet, hu]
      exact WalletsNonNeg_create s u hnn
  · -- withdraw / fee insufficiency
    intro w hw hlow
    have hsuf : has_sufficient_balance w amount = false := by
      simp [has_sufficient_balance, not_le.mpr hlow]
    constructor
    · simp only [withdraw_funds, hw, hsuf]
      rfl
    · simp only [deduct_platform_fee, hw, hsuf]
      rfl
  · -- transfer insufficiency
    intro w hw hlow
    have hsuf : has_sufficient_balance w amount = false := by
      simp [has_sufficient_balance, not_le.mpr hlow]
    cases ht : get_wallet_by_user s toUser with
    | some tw =>
      simp only [transfer_funds, get_or_create_wallet, hw, ht, hsuf,
        Bool.false_eq_true, if_false]
      exact ⟨trivial, fun v => Or.inl trivial⟩
    | none =>
      simp only [transfer_funds, get_or_create_wallet, hw, ht, hsuf,
        Bool.false_eq_true, if_false]
      refine ⟨trivial, fun v => ?_⟩
      rw [walletBalance_create]
      cases hv : walletBalance s v with
      | some b => exact Or.inl rfl
      | none =>
        by_cases hc : toUser = v
        · subst hc
          exact Or.inr ⟨rfl, rfl, by simp⟩
        · simp [hc]

/-- C4, counterexample to the claim as stated: from an all-non-negative
store (user 1 holds 100, user 2 holds 5), `transfer_funds` with the
Decimal amount −50 succeeds — the balance guard `100 ≥ −50` passes —
and leaves the receiver's wallet at −45, a negative balance. -/
theorem wallet_nonneg_counterexample :
    WalletsNonNeg wSt1 ∧
    (transfer_funds wSt1 1 2 (-50) .LOAN_FUNDING none).2 =
        Except.ok ((150 : ℚ), (-45 : ℚ)) ∧
    walletBalance (transfer_funds wSt1 1 2 (-50) .LOAN_FUNDING none).1 2 =
        some (-45) ∧
    ¬ (0 : ℚ) ≤ -45 := by
  refine ⟨by decide, ?_, ?_, by norm_num⟩ <;>
    norm_num [transfer_funds, get_or_create_wallet, get_wallet_by_user,
      has_sufficient_balance, update_balance, create_transaction,
      walletBalance, wSt1, List.find?]

/-- C4 witness: the amended theorem applied at the concrete two-wallet
store with amount 30. -/
theorem wallet_ops_preserve_nonneg_witness :
    WalletsNonNeg (deposit_funds wSt1 1 30).1 ∧
    WalletsNonNeg (withdraw_funds wSt1 1 30).1 ∧
    WalletsNonNeg (transfer_funds wSt1 1 2 30 .LOAN_FUNDING (some "r")).1 ∧
    WalletsNonNeg (deduct_platform_fee wSt1 1 30 (some "r")).1 ∧
    WalletsNonNeg (get_or_create_wallet wSt1 1).1 ∧
    (∀ w, get_wallet_by_user wSt1 1 = some w → w.balance < 30 →
        withdraw_funds wSt1 1 30 = (wSt1, .error "Insufficient funds") ∧
        deduct_platform_fee wSt1 1 30 (some "r") =
          (wSt1, .error "Insufficient funds for platform fee")) ∧
    (∀ w, get_wallet_by_user wSt1 1 = some w → w.balance < 30 →
        (transfer_funds wSt1 1 2 30 .LOAN_FUNDING (some "r")).2 =
          .error "Insufficient funds" ∧
        ∀ v, walletBalance (transfer_funds wSt1 1 2 30 .LOAN_FUNDING (some "r")).1 v =
               walletBalance wSt1 v ∨
             (walletBalance wSt1 v = none ∧ v = 2 ∧
              walletBalance (transfer_funds wSt1 1 2 30 .LOAN_FUNDING (some "r")).1 v =
                some 0)) :=
  wallet_ops_preserve_nonneg wSt1 1 1 2 30 .LOAN_FUNDING (some "r")
    (by decide) (by decide)

/-! ## Claim C6 -/

/-- C6, counterexample to the claim as stated: at amount 1.00, annual
rate 6%, term 1, the exact payment is 1.005; `quantize` with the
context's default ROUND_HALF_EVEN gives 1.00, while the spec's
round-half-up would give 1.01. -/
theorem monthly_payment_roundhalfup_counterexample :
    monthlyPayment 1 6 1 = 1 ∧
    specMonthlyPaymentHalfUp 1 6 1 = 101 / 100 ∧
    monthlyPayment 1 6 1 ≠ specMonthlyPaymentHalfUp 1 6 1 := by
  refine ⟨?ha, ?hb, ?_⟩
  case ha => norm_num [monthlyPayment, quantize2HalfEven, roundHalfEvenInt]
  case hb => norm_num [specMonthlyPaymentHalfUp, quantize2HalfUp, roundHalfUpInt]
  case _ =>
    norm_num [monthlyPayment, specMonthlyPaymentHalfUp, quantize2HalfEven,
      quantize2HalfUp, roundHalfEvenInt, roundHalfUpInt]

/-- C6 (amended: the quantization uses the Decimal context default
ROUND_HALF_EVEN, not round-half-up).  For amount > 0 and term ≥ 1:
with zero monthly rate the payment is `amount/termMonths`; otherwise it
is the amortization formula quantized to 2 places half-even; and the
spec's concrete instance (1000.00 at 12% over 6 months) lands within
0.01 of 172.55. -/
theorem monthly_payment_formula (amount annualInterestRate : ℚ) (termMonths : Nat)
    (_hamt : 0 < amount) (hterm : 1 ≤ termMonths) :
    (annualInterestRate / 100 / 12 = 0 →
        monthlyPayment amount annualInterestRate termMonths = amount / termMonths) ∧
    (annualInterestRate / 100 / 12 ≠ 0 →
        monthlyPayment amount annualInterestRate termMonths =
          specMonthlyPaymentHalfEven amount annualInterestRate termMonths) ∧
    |monthlyPayment 1000 12 6 - 17255 / 100| ≤ 1 / 100 := by
  have hne : termMonths ≠ 0 := by omega
  refine ⟨?_, ?_, ?_⟩
  · intro hr
    simp only [monthlyPayment, hne, if_false, hr, if_true]
  · intro hr
    simp only [monthlyPayment, specMonthlyPaymentHalfEven, hne, if_false, hr]
  · have : monthlyPayment 1000 12 6 = 17255 / 100 := by
      norm_num [monthlyPayment, quantize2HalfEven, roundHalfEvenInt]
    rw [this]
    norm_num

/-- C6 witness: the amended theorem at the spec's own instance
(amount 1000, rate 12, term 6). -/
theorem monthly_payment_formula_witness :
    ((12 : ℚ) / 100 / 12 = 0 →
        monthlyPayment 1000 12 6 = 1000 / (6 : Nat)) ∧
    ((12 : ℚ) / 100 / 12 ≠ 0 →
        monthlyPayment 1000 12 6 = specMonthlyPaymentHalfEven 1000 12 6) ∧
    |monthlyPayment 1000 12 6 - 17255 / 100| ≤ 1 / 100 :=
  monthly_payment_formula 1000 12 6 (by decide) (by decide)

/-! ## Claim C8 -/

/-- Exhaustive behaviour of the `create_offer` operation: it either
fails leaving the store untouched, or every guard passed and exactly
the one new un-accepted offer row was appended. -/
theorem create_offer_endpoint_cases (s : St) (loanId : Nat) (caller : User)
    (rate : ℚ) :
    (∃ e, create_offer_endpoint s loanId caller rate = (s, Except.error e)) ∨
    (∃ loan, get_loan_by_id s loanId = some loan ∧ caller.role = .LENDER ∧
      0 ≤ rate ∧ rate ≤ 50 ∧ loan.status = .REQUESTED ∧
      loan.borrower ≠ caller.id ∧
      check_existing_offer s loan.id caller.id = false ∧
      create_offer_endpoint s loanId caller rate =
        ({ s with
             offers := s.offers ++
               [{ id := s.nextOfferId, loanId := loan.id, lenderId := caller.id,
                  annualInterestRate := rate, accepted := false }],
             nextOfferId := s.nextOfferId + 1 },
         Except.ok { id := s.nextOfferId, loanId := loan.id,
                     lenderId := caller.id, annualInterestRate := rate,
                     accepted := false })) := by
  by_cases hrole : caller.role = Role.LENDER
  · by_cases hneg : rate < 0
    · exact Or.inl ⟨"Interest rate cannot be negative",
        by simp [create_offer_endpoint, hrole, hneg]⟩
    · by_cases hhigh : 50 < rate
      · exact Or.inl ⟨"Interest rate cannot exceed 50%",
          by simp [create_offer_endpoint, hrole, hneg, hhigh]⟩
      · cases hloan : get_loan_by_id s loanId with
        | none =>
          exact Or.inl ⟨"Loan not found", by
            simp [create_offer_endpoint, create_offer, hrole, hneg, hhigh, hloan]⟩
        | some loan =>
          by_cases hst : loan.status = LoanStatus.REQUESTED
          · by_cases hb : loan.borrower = caller.id
            · exact Or.inl ⟨"Cannot make offer on your own loan", by
                simp [create_offer_endpoint, create_offer, hrole, hneg, hhigh,
                  hloan, hst, hb]⟩
            · by_cases hex : check_existing_offer s loan.id caller.id
              · exact Or.inl ⟨"You have already made an offer on this loan", by
                  simp [create_offer_endpoint, create_offer, hrole, hneg, hhigh,
                    hloan, hst, hb, hex]⟩
              · refine Or.inr ⟨loan, rfl, hrole, not_lt.mp hneg, not_lt.mp hhigh,
                  hst, hb, by simpa using hex, ?_⟩
                simp [create_offer_endpoint, create_offer, hrole, hneg, hhigh,
                  hloan, hst, hb, hex]
          · exact Or.inl ⟨"Loan is not available for offers", by
              simp [create_offer_endpoint, create_offer, hrole, hneg, hhigh,
                hloan, hst]⟩
  · exact Or.inl ⟨"Only lenders can make offers",
      by simp [create_offer_endpoint, hrole]⟩

/-- C8.  The `create_offer` operation fails — leaving the store
untouched — when the caller lacks the Lender role, when the loan is
not REQUESTED, when the lender is the loan's borrower, when the rate
falls outside [0, 50], or when this lender already has an offer on
this loan; and when every guard passes it appends exactly one new
offer row with `accepted = false` and changes nothing else. -/
theorem create_offer_spec (s : St) (loanId : Nat) (caller : User) (rate : ℚ) :
    (caller.role ≠ .LENDER →
        offerCallFails s (create_offer_endpoint s loanId caller rate)) ∧
    (∀ loan, get_loan_by_id s loanId = some loan → loan.status ≠ .REQUESTED →
        offerCallFails s (create_offer_endpoint s loanId caller rate)) ∧
    (∀ loan, get_loan_by_id s loanId = some loan → loan.borrower = caller.id →
        offerCallFails s (create_offer_endpoint s loanId caller rate)) ∧
    (rate < 0 ∨ 50 < rate →
        offerCallFails s (create_offer_endpoint s loanId caller rate)) ∧
    (∀ loan, get_loan_by_id s loanId = some loan →
        check_existing_offer s loan.id caller.id = true →
        offerCallFails s (create_offer_endpoint s loanId caller rate)) ∧
    (∀ loan, get_loan_by_id s loanId = some loan →
        caller.role = .LENDER → 0 ≤ rate → rate ≤ 50 →
        loan.status = .REQUESTED → loan.borrower ≠ caller.id →
        check_existing_offer s loan.id caller.id = false →
        create_offer_endpoint s loanId caller rate =
          ({ s with
               offers := s.offers ++
                 [{ id := s.nextOfferId, loanId := loan.id,
                    lenderId := caller.id, annualInterestRate := rate,
                    accepted := false }],
               nextOfferId := s.nextOfferId + 1 },
           Except.ok { id := s.nextOfferId, loanId := loan.id,
                       lenderId := caller.id, annualInterestRate := rate,
                       accepted := false })) := by
  have H := create_offer_endpoint_cases s loanId caller rate
  refine ⟨?_, ?_, ?_, ?_, ?_, ?_⟩
  · intro hrole
    rcases H with ⟨e, he⟩ | ⟨loan', _, hrole', _⟩
    · exact ⟨by rw [he], e, by rw [he]⟩
    · exact absurd hrole' hrole
  · intro loan hloan hst
    rcases H with ⟨e, he⟩ | ⟨loan', hl', _, _, _, hst', _⟩
    · exact ⟨by rw [he], e, by rw [he]⟩
    · rw [hloan] at hl'
      cases Option.some.inj hl'
      exact absurd hst' hst
  · intro loan hloan hb
    rcases H with ⟨e, he⟩ | ⟨loan', hl', _, _, _, _, hb', _⟩
    · exact ⟨by rw [he], e, by rw [he]⟩
    · rw [hloan] at hl'
      cases Option.some.inj hl'
      exact absurd hb hb'
  · intro hr
    rcases H with ⟨e, he⟩ | ⟨loan', _, _, h0, h50, _⟩
    · exact ⟨by rw [he], e, by rw [he]⟩
    · rcases hr with h | h
      · exact absurd h (not_lt.mpr h0)
      · exact absurd h (not_lt.mpr h50)
  · intro loan hloan hex
    rcases H with ⟨e, he⟩ | ⟨loan', hl', _, _, _, _, _, hex', _⟩
    · exact ⟨by rw [he], e, by rw [he]⟩
    · rw [hloan] at hl'
      cases Option.some.inj hl'
      rw [hex] at hex'
      exact absurd hex' (by simp)
  · intro loan hloan hrole h0 h50 hst hb hex
    simp [create_offer_endpoint, create_offer, hrole, not_lt.mpr h0,
      not_lt.mpr h50, hloan, hst, hb, hex]

/-! ## Claim C9 -/

theorem sweep_map_of_no_overdue (today : Date) (l : List Payment)
    (h : l.filter (overduePred today) = []) :
    l.map (sweepRow today) = l := by
  induction l with
  | nil => rfl
  | cons p t ih =>
    rw [List.filter_cons] at h
    by_cases hp : overduePred today p
    · simp [hp] at h
    · simp only [hp, if_false, Bool.false_eq_true] at h
      simp [sweepRow, hp, ih h]

theorem filter_overdue_after_sweep (today : Date) (l : List Payment) :
    (l.map (sweepRow today)).filter (overduePred today) = [] := by
  induction l with
  | nil => rfl
  | cons p t ih =>
    by_cases hp : overduePred today p
    · simp only [List.map_cons, List.filter_cons, sweepRow, hp, if_true]
      simp only [overduePred] at hp ⊢
      simp [ih]
    · simp only [List.map_cons, List.filter_cons, sweepRow, hp, if_false]
      simp [hp, ih]

/-- C9.  The sweep rewrites exactly the PENDING rows whose due date is
before today to OVERDUE (all other rows and tables untouched), reports
that number as found and updated, and running it again on the result
changes nothing and reports zero found and zero updated. -/
theorem overdue_sweep_idempotent (today : Date) (s : St) :
    (check_overdue_payments today s).1.payments =
        s.payments.map (sweepRow today) ∧
    (check_overdue_payments today s).1.wallets = s.wallets ∧
    (check_overdue_payments today s).1.txns = s.txns ∧
    (check_overdue_payments today s).1.loans = s.loans ∧
    (check_overdue_payments today s).1.offers = s.offers ∧
    (check_overdue_payments today s).2 =
        { overdue_payments_found := (s.payments.filter (overduePred today)).length,
          payments_marked_overdue :=
            (s.payments.filter (overduePred today)).length } ∧
    check_overdue_payments today (check_overdue_payments today s).1 =
      ((check_overdue_payments today s).1,
       { overdue_payments_found := 0, payments_marked_overdue := 0 }) := by
  by_cases h0 : (s.payments.filter (overduePred today)).length = 0
  · have hnil : s.payments.filter (overduePred today) = [] :=
      List.length_eq_zero.mp h0
    have hmap : s.payments.map (sweepRow today) = s.payments :=
      sweep_map_of_no_overdue today s.payments hnil
    refine ⟨?_, ?_, ?_, ?_, ?_, ?_, ?_⟩ <;>
      simp [check_overdue_payments, h0, hnil, hmap]
  · have hstate : (check_overdue_payments today s).1 =
        { s with payments := s.payments.map (sweepRow today) } := by
      simp [check_overdue_payments, h0, sweepRow]
    have hsummary : (check_overdue_payments today s).2 =
        { overdue_payments_found := (s.payments.filter (overduePred today)).length,
          payments_marked_overdue :=
            (s.payments.filter (overduePred today)).length } := by
      simp [check_overdue_payments, h0]
    have hfilter2 :
        ((check_overdue_payments today s).1.payments.filter (overduePred today)) = [] := by
      rw [hstate]
      exact filter_overdue_after_sweep today s.payments
    refine ⟨by rw [hstate], by rw [hstate], by rw [hstate], by rw [hstate],
      by rw [hstate], hsummary, ?_⟩
    obtain ⟨s1, hs1⟩ : ∃ s1, (check_overdue_payments today s).1 = s1 := ⟨_, rfl⟩
    rw [hs1] at hfilter2 ⊢
    simp [check_overdue_payments, hfilter2]

/-! ## Claim C3 -/

theorem minByPaymentNumber_none (l : List Payment)
    (h : minByPaymentNumber l = none) : l = [] := by
  cases l with
  | nil => rfl
  | cons a b =>
    rw [minByPaymentNumber] at h
    cases hb : minByPaymentNumber b with
    | none =>
      rw [hb] at h
      simp only [] at h
      simp at h
    | some m =>
      rw [hb] at h
      simp only [] at h
      by_cases hle : a.paymentNumber ≤ m.paymentNumber
      · rw [if_pos hle] at h
        simp at h
      · rw [if_neg hle] at h
        simp at h

theorem minByPaymentNumber_mem (l : List Payment) (p : Payment)
    (h : minByPaymentNumber l = some p) : p ∈ l := by
  induction l generalizing p with
  | nil => simp [minByPaymentNumber] at h
  | cons a t ih =>
    rw [minByPaymentNumber] at h
    cases ht : minByPaymentNumber t with
    | none =>
      rw [ht] at h
      simp only [] at h
      rw [← Option.some.inj h]
      exact List.mem_cons_self a t
    | some m =>
      rw [ht] at h
      simp only [] at h
      by_cases hle : a.paymentNumber ≤ m.paymentNumber
      · rw [if_pos hle] at h
        rw [← Option.some.inj h]
        exact List.mem_cons_self a t
      · rw [if_neg hle] at h
        rw [← Option.some.inj h]
        exact List.mem_cons_of_mem a (ih m ht)

theorem minByPaymentNumber_min (l : List Payment) (p : Payment)
    (h : minByPaymentNumber l = some p) :
    ∀ q ∈ l, p.paymentNumber ≤ q.paymentNumber := by
  induction l generalizing p with
  | nil => simp [minByPaymentNumber] at h
  | cons a t ih =>
    rw [minByPaymentNumber] at h
    intro x hx
    cases ht : minByPaymentNumber t with
    | none =>
      rw [ht] at h
      simp only [] at h
      have hap : a = p := Option.some.inj h
      have htnil : t = [] := minByPaymentNumber_none t ht
      subst htnil
      rcases List.mem_cons.mp hx with hxa | hxt
      · rw [← hap, hxa]
      · simp at hxt
    | some m =>
      rw [ht] at h
      simp only [] at h
      by_cases hle : a.paymentNumber ≤ m.paymentNumber
      · rw [if_pos hle] at h
        have hap : a = p := Option.some.inj h
        rcases List.mem_cons.mp hx with hxa | hxt
        · rw [← hap, hxa]
        · rw [← hap]
          exact le_trans hle (ih m ht x hxt)
      · rw [if_neg hle] at h
        have hmp : m = p := Option.some.inj h
        rcases List.mem_cons.mp hx with hxa | hxt
        · rw [← hmp, hxa]
          exact le_of_lt (lt_of_not_le hle)
        · rw [← hmp]
          exact ih m ht x hxt

theorem transfer_funds_other_tables (s : St) (f t : Nat) (a : ℚ)
    (k : TxKind) (r : Option String) :
    (transfer_funds s f t a k r).1.payments = s.payments ∧
    (transfer_funds s f t a k r).1.loans = s.loans ∧
    (transfer_funds s f t a k r).1.offers = s.offers ∧
    (transfer_funds s f t a k r).1.nextPaymentId = s.nextPaymentId ∧
    (transfer_funds s f t a k r).1.nextOfferId = s.nextOfferId := by
  unfold transfer_funds get_or_create_wallet
  cases get_wallet_by_user s f with
  | none => cases get_wallet_by_user s t <;> exact ⟨rfl, rfl, rfl, rfl, rfl⟩
  | some w =>
    cases get_wallet_by_user s t <;>
      by_cases h : has_sufficient_balance w a <;>
      simp [h, update_balance, create_transaction]

theorem transfer_funds_ok_of_balance (s : St) (f t : Nat) (a : ℚ)
    (k : TxKind) (r : Option String) (h : check_balance s f a = true) :
    ∃ v, (transfer_funds s f t a k r).2 = Except.ok v := by
  unfold check_balance at h
  cases hf : get_wallet_by_user s f with
  | none =>
    rw [hf] at h
    simp at h
  | some w =>
    rw [hf] at h
    simp only [] at h
    cases ht : get_wallet_by_user s t with
    | none =>
      exact ⟨(w.balance - a, a), by
        simp [transfer_funds, get_or_create_wallet, hf, ht, h]⟩
    | some tw =>
      exact ⟨(w.balance - a, tw.balance + a), by
        simp [transfer_funds, get_or_create_wallet, hf, ht, h]⟩

theorem find?_paymentId_map (f : Payment → Payment)
    (hf : ∀ p, (f p).id = p.id) (l : List Payment) (i : Nat) :
    ((l.map f).find? fun p => p.id = i) = (l.find? fun p => p.id = i).map f := by
  induction l with
  | nil => rfl
  | cons a t ih =>
    by_cases ha : a.id = i
    · simp [List.find?, hf, ha]
    · simp [List.find?, hf, ha, ih]

theorem find?_loanKey_map (f : Loan → Loan)
    (hf : ∀ x, (f x).id = x.id) (l : List Loan) (i : Nat) :
    ((l.map f).find? fun x => x.id = i) = (l.find? fun x => x.id = i).map f := by
  induction l with
  | nil => rfl
  | cons a t ih =>
    by_cases ha : a.id = i
    · simp [List.find?, hf, ha]
    · simp [List.find?, hf, ha, ih]

theorem find?_id_of_mem_nodup (l : List Payment)
    (hnd : (l.map Payment.id).Nodup) (p : Payment) (hp : p ∈ l) :
    (l.find? fun x => x.id = p.id) = some p := by
  induction l with
  | nil => simp at hp
  | cons a t ih =>
    rw [List.map_cons, List.nodup_cons] at hnd
    rcases List.mem_cons.mp hp with rfl | hpt
    · simp [List.find?]
    · have hne : ¬ a.id = p.id := by
        intro he
        exact hnd.1 (he ▸ List.mem_map.mpr ⟨p, hpt, rfl⟩)
      simpa [List.find?, hne] using ih hnd.2 hpt

theorem get_loan_by_id_id (s : St) (i : Nat) (l : Loan)
    (h : get_loan_by_id s i = some l) : l.id = i := by
  unfold get_loan_by_id at h
  simpa using List.find?_some h

theorem length_filter_eq_length_forall {α : Type} (l : List α) (p : α → Bool)
    (h : (l.filter p).length = l.length) : ∀ a ∈ l, p a = true := by
  induction l with
  | nil =>
    intro a ha
    simp at ha
  | cons a t ih =>
    rw [List.filter_cons] at h
    by_cases hp : p a
    · intro x hx
      rcases List.mem_cons.mp hx with rfl | hxt
      · exact hp
      · simp only [hp, if_true, List.length_cons, Nat.add_right_cancel_iff] at h
        exact ih h x hxt
    · exfalso
      simp only [hp, if_false, Bool.false_eq_true, List.length_cons] at h
      have := List.length_filter_le p t
      omega

theorem all_paid_iff (s : St) (i : Nat) :
    (get_all_payments_for_loan_status s i).all_paid = true ↔
      ((∀ q ∈ paymentsForLoan s i, q.status = .PAID) ∧
        paymentsForLoan s i ≠ []) := by
  unfold get_all_payments_for_loan_status paymentsForLoan
  simp only [decide_eq_true_eq]
  constructor
  · rintro ⟨hlen, hpos⟩
    constructor
    · intro q hq
      have := length_filter_eq_length_forall _ _ hlen q hq
      simpa using this
    · intro hnil
      rw [hnil] at hpos
      simp at hpos
  · rintro ⟨hall, hnil⟩
    constructor
    · have heq : (s.payments.filter fun p => p.loanId = i).filter
          (fun p => p.status = PaymentStatus.PAID) =
          s.payments.filter fun p => p.loanId = i :=
        List.filter_eq_self.mpr fun a ha => by simpa using hall a ha
      rw [heq]
    · exact List.length_pos.mpr hnil

theorem counts_congr (s1 s2 : St) (h : s1.payments = s2.payments) (i : Nat) :
    get_all_payments_for_loan_status s1 i = get_all_payments_for_loan_status s2 i := by
  unfold get_all_payments_for_loan_status
  rw [h]

theorem paymentsForLoan_congr (s1 s2 : St) (h : s1.payments = s2.payments)
    (i : Nat) : paymentsForLoan s1 i = paymentsForLoan s2 i := by
  unfold paymentsForLoan
  rw [h]

theorem get_loan_by_id_update (s : St) (l : Loan) (i : Nat) :
    get_loan_by_id (update_loan_row s l) i =
      (get_loan_by_id s i).map fun x => if x.id = l.id then l else x :=
  find?_loanKey_map _ (fun x => by by_cases hx : x.id = l.id <;> simp [hx])
    s.loans i

/-- C3.  For a FUNDED loan owned by the calling borrower,
`make_payment` selects the lowest-numbered PENDING payment of the loan;
on success that payment's row becomes PAID with `paid_at` set, the
returned flag reports exactly whether every payment of the loan is now
PAID (with at least one present), the loan is rewritten to COMPLETED
when the flag is true and left FUNDED when it is false; and with no
PENDING payment the call fails with the "No pending payments found"
error and changes nothing. -/
theorem make_payment_spec (now : Date) (s : St) (loanId borrower : Nat)
    (loan : Loan)
    (hids : (s.payments.map Payment.id).Nodup)
    (hloan : get_loan_by_id s loanId = some loan)
    (hb : loan.borrower = borrower)
    (hst : loan.status = .FUNDED) :
    (get_next_pending_payment s loan.id = none →
        make_payment now s loanId borrower =
          (s, Except.error "No pending payments found")) ∧
    (∀ p, get_next_pending_payment s loan.id = some p →
        p ∈ s.payments ∧ p.loanId = loan.id ∧ p.status = .PENDING ∧
        ∀ q ∈ s.payments, q.loanId = loan.id → q.status = .PENDING →
          p.paymentNumber ≤ q.paymentNumber) ∧
    (∀ p res, get_next_pending_payment s loan.id = some p →
        (make_payment now s loanId borrower).2 = Except.ok res →
        res.1 = { p with status := .PAID, paidAt := some now } ∧
        get_payment_by_id (make_payment now s loanId borrower).1 p.id =
          some { p with status := .PAID, paidAt := some now } ∧
        (res.2 = true ↔
          ((∀ q ∈ paymentsForLoan (make_payment now s loanId borrower).1 loan.id,
              q.status = .PAID) ∧
            paymentsForLoan (make_payment now s loanId borrower).1 loan.id ≠ [])) ∧
        (res.2 = true →
          get_loan_by_id (make_payment now s loanId borrower).1 loanId =
            some { loan with status := .COMPLETED }) ∧
        (res.2 = false →
          get_loan_by_id (make_payment now s loanId borrower).1 loanId =
            some loan)) := by
  refine ⟨?_, ?_, ?_⟩
  · intro hnp
    simp [make_payment, hloan, hb, hst, hnp]
  · intro p hp
    unfold get_next_pending_payment at hp
    have hmem := minByPaymentNumber_mem _ _ hp
    have hmin := minByPaymentNumber_min _ _ hp
    have hmemf := List.mem_filter.mp hmem
    refine ⟨hmemf.1, ?_, ?_, ?_⟩
    · have := hmemf.2
      simp at this
      exact this.1
    · have := hmemf.2
      simp at this
      exact this.2
    · intro q hq hql hqs
      exact hmin q (List.mem_filter.mpr ⟨hq, by simp [hql, hqs]⟩)
  · intro p res hp hres
    by_cases hcb : check_balance s borrower p.amount
    · cases hl : loan.lender with
      | none =>
        exfalso
        rw [show make_payment now s loanId borrower =
            (s, Except.error "IntegrityError: loan has no lender") from by
          simp [make_payment, hloan, hb, hst, hp, hcb, hl]] at hres
        simp at hres
      | some lender =>
        obtain ⟨v, hv⟩ := transfer_funds_ok_of_balance s borrower lender
          p.amount .LOAN_PAYMENT
          (some ("payment_" ++ toString p.id)) hcb
        have hred : make_payment now s loanId borrower =
            (if (get_all_payments_for_loan_status
                  (mark_payment_as_paid
                    (transfer_funds s borrower lender p.amount .LOAN_PAYMENT
                      (some ("payment_" ++ toString p.id))).1 p now)
                  loan.id).all_paid = true then
               update_loan_row
                 (mark_payment_as_paid
                   (transfer_funds s borrower lender p.amount .LOAN_PAYMENT
                     (some ("payment_" ++ toString p.id))).1 p now)
                 { loan with status := .COMPLETED }
             else
               mark_payment_as_paid
                 (transfer_funds s borrower lender p.amount .LOAN_PAYMENT
                   (some ("payment_" ++ toString p.id))).1 p now,
             Except.ok ({ p with status := .PAID, paidAt := some now },
               (get_all_payments_for_loan_status
                 (mark_payment_as_paid
                   (transfer_funds s borrower lender p.amount .LOAN_PAYMENT
                     (some ("payment_" ++ toString p.id))).1 p now)
                 loan.id).all_paid)) := by
          simp [make_payment, hloan, hb, hst, hp, hcb, hl, hv]
        obtain ⟨r1, r2⟩ := res
        have htf := transfer_funds_other_tables s borrower lender p.amount
          .LOAN_PAYMENT (some ("payment_" ++ toString p.id))
        have hmem : p ∈ s.payments := by
          unfold get_next_pending_payment at hp
          exact (List.mem_filter.mp (minByPaymentNumber_mem _ _ hp)).1
        have hmf : ∀ x : Payment,
            ((fun x => if x.id = p.id then
                { p with status := PaymentStatus.PAID, paidAt := some now }
              else x) x).id = x.id := by
          intro x
          by_cases hx : x.id = p.id
          · simp [hx]
          · simp [hx]
        set s2 := mark_payment_as_paid
          (transfer_funds s borrower lender p.amount .LOAN_PAYMENT
            (some ("payment_" ++ toString p.id))).1 p now with hs2def
        set flag := (get_all_payments_for_loan_status s2 loan.id).all_paid
          with hflagdef
        rw [hred] at hres
        simp only [] at hres
        have hres2 := Except.ok.inj hres
        have hr1 : r1 = { p with status := PaymentStatus.PAID, paidAt := some now } :=
          (congrArg Prod.fst hres2).symm
        have hr2 : r2 = flag := (congrArg Prod.snd hres2).symm
        have hstatePay : (make_payment now s loanId borrower).1.payments =
            s2.payments := by
          rw [hred]
          by_cases hfl : flag = true
          · simp only [hfl, if_true]
            rfl
          · simp only [hfl]
            rfl
        have hs2pay : s2.payments = s.payments.map
            (fun x => if x.id = p.id then
              { p with status := PaymentStatus.PAID, paidAt := some now }
            else x) := by
          rw [hs2def]
          show (transfer_funds s borrower lender p.amount .LOAN_PAYMENT
            (some ("payment_" ++ toString p.id))).1.payments.map _ =
            s.payments.map _
          rw [htf.1]
        have hs2loans : s2.loans = s.loans := by
          rw [hs2def]
          show (transfer_funds s borrower lender p.amount .LOAN_PAYMENT
            (some ("payment_" ++ toString p.id))).1.loans = s.loans
          exact htf.2.1
        refine ⟨hr1, ?_, ?_, ?_, ?_⟩
        · unfold get_payment_by_id
          rw [hstatePay.trans hs2pay, find?_paymentId_map _ hmf,
            find?_id_of_mem_nodup s.payments hids p hmem]
          simp
        · have hpfl : paymentsForLoan (make_payment now s loanId borrower).1 loan.id =
              paymentsForLoan s2 loan.id :=
            paymentsForLoan_congr _ _ hstatePay loan.id
          rw [hr2, hpfl, hflagdef]
          exact all_paid_iff s2 loan.id
        · intro h2
          have hfl : flag = true := by
            rw [← hr2]
            exact h2
          rw [hred]
          simp only [hfl, if_true]
          rw [get_loan_by_id_update]
          have hloan2 : get_loan_by_id s2 loanId = some loan := by
            unfold get_loan_by_id
            rw [hs2loans]
            exact hloan
          rw [hloan2]
          simp [hl]
        · intro h2
          have hfl : flag = false := by
            rw [← hr2]
            exact h2
          rw [hred]
          simp only [hfl, Bool.false_eq_true, if_false]
          unfold get_loan_by_id
          rw [hs2loans]
          exact hloan
    · exfalso
      rw [show make_payment now s loanId borrower =
          (s, Except.error "Insufficient funds for payment") from by
        simp [make_payment, hloan, hb, hst, hp, hcb]] at hres
      simp at hres

/-- C3 witness: the theorem applied to `pSt` (borrower 1 paying on
FUNDED loan 1). -/
theorem make_payment_spec_witness :
    (get_next_pending_payment pSt loanF1.id = none →
        make_payment day0 pSt 1 1 =
          (pSt, Except.error "No pending payments found")) ∧
    (∀ p, get_next_pending_payment pSt loanF1.id = some p →
        p ∈ pSt.payments ∧ p.loanId = loanF1.id ∧ p.status = .PENDING ∧
        ∀ q ∈ pSt.payments, q.loanId = loanF1.id → q.status = .PENDING →
          p.paymentNumber ≤ q.paymentNumber) ∧
    (∀ p res, get_next_pending_payment pSt loanF1.id = some p →
        (make_payment day0 pSt 1 1).2 = Except.ok res →
        res.1 = { p with status := .PAID, paidAt := some day0 } ∧
        get_payment_by_id (make_payment day0 pSt 1 1).1 p.id =
          some { p with status := .PAID, paidAt := some day0 } ∧
        (res.2 = true ↔
          ((∀ q ∈ paymentsForLoan (make_payment day0 pSt 1 1).1 loanF1.id,
              q.status = .PAID) ∧
            paymentsForLoan (make_payment day0 pSt 1 1).1 loanF1.id ≠ [])) ∧
        (res.2 = true →
          get_loan_by_id (make_payment day0 pSt 1 1).1 1 =
            some { loanF1 with status := .COMPLETED }) ∧
        (res.2 = false →
          get_loan_by_id (make_payment day0 pSt 1 1).1 1 = some loanF1)) :=
  make_payment_spec day0 pSt 1 1 loanF1 (by decide) (by decide) (by decide)
    (by decide)

/-! ## Claim C2 -/

theorem get_loan_by_id_mem (s : St) (i : Nat) (l : Loan)
    (h : get_loan_by_id s i = some l) : l ∈ s.loans := by
  unfold get_loan_by_id at h
  exact List.mem_of_find?_eq_some h

/-- The ledger rows a sufficient-balance transfer appends (holds also
for a self-transfer). -/
theorem transfer_funds_ok_txns (s : St) (f t : Nat) (a : ℚ) (k : TxKind)
    (r : Option String) (w : Wallet)
    (hw : get_wallet_by_user s f = some w)
    (hs : has_sufficient_balance w a = true) :
    (transfer_funds s f t a k r).1.txns =
      s.txns ++
        [{ walletUserId := f, kind := k, amount := -a, referenceId := r },
         { walletUserId := t, kind := k, amount := a, referenceId := r }] := by
  cases ht : get_wallet_by_user s t <;>
    simp [transfer_funds, get_or_create_wallet, hw, hs, ht,
      txns_create_transaction, txns_update_balance]

/-- The sender's wallet row after a sufficient-balance transfer: on a
self-transfer the later credit write (from the stale pre-debit
snapshot) wins. -/
theorem transfer_funds_from_wallet (s : St) (f t : Nat) (a : ℚ) (k : TxKind)
    (r : Option String) (w : Wallet)
    (hw : get_wallet_by_user s f = some w)
    (hs : has_sufficient_balance w a = true) :
    get_wallet_by_user (transfer_funds s f t a k r).1 f =
      some { w with
               balance := if f = t then w.balance + a else w.balance - a } := by
  have hwu : w.userId = f := get_wallet_by_user_userId s f w hw
  cases ht : get_wallet_by_user s t with
  | some tw =>
    have htu : tw.userId = t := get_wallet_by_user_userId s t tw ht
    by_cases hft : f = t
    · subst hft
      have htww : tw = w := by
        rw [hw] at ht
        exact (Option.some.inj ht).symm
      subst htww
      simp only [transfer_funds, get_or_create_wallet, hw, ht, hs, if_true]
      rw [get_wallet_create_transaction, get_wallet_create_transaction,
        get_wallet_update_balance, get_wallet_update_balance, hw]
      simp [hwu, writtenBalance]
    · simp only [transfer_funds, get_or_create_wallet, hw, ht, hs, if_true]
      rw [get_wallet_create_transaction, get_wallet_create_transaction,
        get_wallet_update_balance, get_wallet_update_balance, hw]
      simp [hwu, htu, hft, writtenBalance]
  | none =>
    have hft : f ≠ t := by
      intro hft
      rw [hft, ht] at hw
      simp at hw
    simp only [transfer_funds, get_or_create_wallet, hw, ht, hs, if_true]
    rw [get_wallet_create_transaction, get_wallet_create_transaction,
      get_wallet_update_balance, get_wallet_update_balance,
      get_wallet_after_create, hw]
    simp [hwu, hft, writtenBalance]

/-- Explicit success equation for `deduct_platform_fee`. -/
theorem deduct_platform_fee_ok_effects (s : St) (u : Nat) (a : ℚ)
    (r : Option String) (w : Wallet)
    (hw : get_wallet_by_user s u = some w)
    (hs : has_sufficient_balance w a = true) :
    deduct_platform_fee s u a r =
      (create_transaction (update_balance s w a .subtract) u .PLATFORM_FEE
        (-a) r,
       Except.ok (w.balance - a)) := by
  simp [deduct_platform_fee, hw, hs]

theorem txns_update_loan_row (s : St) (l : Loan) :
    (update_loan_row s l).txns = s.txns := rfl

theorem txns_generate (s : St) (l : Loan) (today : Date) :
    (generate_payment_schedule s l today).txns = s.txns := rfl

theorem payments_update_loan_row (s : St) (l : Loan) :
    (update_loan_row s l).payments = s.payments := rfl

theorem payments_create_transaction (s : St) (wu : Nat) (k : TxKind) (a : ℚ)
    (r : Option String) : (create_transaction s wu k a r).payments = s.payments := rfl

theorem payments_update_balance (s : St) (w : Wallet) (a : ℚ) (op : BalanceOp) :
    (update_balance s w a op).payments = s.payments := rfl

theorem nextPaymentId_update_loan_row (s : St) (l : Loan) :
    (update_loan_row s l).nextPaymentId = s.nextPaymentId := rfl

theorem nextPaymentId_create_transaction (s : St) (wu : Nat) (k : TxKind)
    (a : ℚ) (r : Option String) :
    (create_transaction s wu k a r).nextPaymentId = s.nextPaymentId := rfl

theorem nextPaymentId_update_balance (s : St) (w : Wallet) (a : ℚ)
    (op : BalanceOp) :
    (update_balance s w a op).nextPaymentId = s.nextPaymentId := rfl

theorem payments_generate (s : St) (l : Loan) (today : Date) :
    (generate_payment_schedule s l today).payments =
      s.payments ++ schedulePayments l (l.fundedAt.getD today) s.nextPaymentId := rfl

theorem walletBalance_update_loan_row (s : St) (l : Loan) (u : Nat) :
    walletBalance (update_loan_row s l) u = walletBalance s u := rfl

theorem walletBalance_generate (s : St) (l : Loan) (today : Date) (u : Nat) :
    walletBalance (generate_payment_schedule s l today) u = walletBalance s u := rfl

theorem loans_update_balance (s : St) (w : Wallet) (a : ℚ) (op : BalanceOp) :
    (update_balance s w a op).loans = s.loans := rfl

theorem loans_create_transaction (s : St) (wu : Nat) (k : TxKind) (a : ℚ)
    (r : Option String) : (create_transaction s wu k a r).loans = s.loans := rfl

/-- C2.  `fund_loan` is all-or-nothing on well-formed data (positive
loan amounts, non-negative configured fee): every non-success outcome
leaves the store exactly as it was — no balance change, no ledger row,
no loan-row change, no payment rows; and a success means the
loan-amount transfer to the borrower, the platform-fee deduction from
the lender, the FUNDED status with `funded_at = now`, and the full
payment schedule were all applied together. -/
theorem fund_loan_spec (platformFee : ℚ) (now : Date) (s : St)
    (loanId lender : Nat)
    (hfee : 0 ≤ platformFee)
    (hamt : ∀ l ∈ s.loans, 0 < l.amount) :
    (∀ e, (fund_loan platformFee now s loanId lender).2 = Except.error e →
        (fund_loan platformFee now s loanId lender).1 = s) ∧
    (∀ loanRes, (fund_loan platformFee now s loanId lender).2 = Except.ok loanRes →
        ∃ loan, get_loan_by_id s loanId = some loan ∧
          loan.lender = some lender ∧
          loan.status = .PENDING_FUNDING ∧
          loanRes = { loan with status := .FUNDED, fundedAt := some now } ∧
          get_loan_by_id (fund_loan platformFee now s loanId lender).1 loanId =
            some { loan with status := .FUNDED, fundedAt := some now } ∧
          (fund_loan platformFee now s loanId lender).1.txns =
            s.txns ++
              [{ walletUserId := lender, kind := .LOAN_FUNDING,
                 amount := -loan.amount,
                 referenceId := some ("loan_" ++ toString loan.id) },
               { walletUserId := loan.borrower, kind := .LOAN_FUNDING,
                 amount := loan.amount,
                 referenceId := some ("loan_" ++ toString loan.id) },
               { walletUserId := lender, kind := .PLATFORM_FEE,
                 amount := -platformFee,
                 referenceId := some ("loan_" ++ toString loan.id ++ "_fee") }] ∧
          (fund_loan platformFee now s loanId lender).1.payments =
            s.payments ++
              schedulePayments { loan with status := .FUNDED, fundedAt := some now }
                now s.nextPaymentId ∧
          (loan.borrower ≠ lender →
            walletBalance (fund_loan platformFee now s loanId lender).1 lender =
              some ((walletBalance s lender).getD 0 - loan.amount - platformFee) ∧
            walletBalance (fund_loan platformFee now s loanId lender).1 loan.borrower =
              some ((walletBalance s loan.borrower).getD 0 + loan.amount))) := by
  cases hloan : get_loan_by_id s loanId with
  | none =>
    have heq : fund_loan platformFee now s loanId lender =
        (s, Except.error "Loan not found") := by
      simp [fund_loan, hloan]
    exact ⟨fun e he => by rw [heq], fun r hr => by rw [heq] at hr; simp at hr⟩
  | some loan =>
    by_cases hlend : loan.lender = some lender
    case neg =>
      have heq : fund_loan platformFee now s loanId lender =
          (s, Except.error "You are not the assigned lender for this loan") := by
        simp [fund_loan, hloan, hlend]
      exact ⟨fun e he => by rw [heq], fun r hr => by rw [heq] at hr; simp at hr⟩
    case pos =>
    by_cases hstat : loan.status = LoanStatus.PENDING_FUNDING
    case neg =>
      have heq : fund_loan platformFee now s loanId lender =
          (s, Except.error "Loan is not ready for funding") := by
        simp [fund_loan, hloan, hlend, hstat]
      exact ⟨fun e he => by rw [heq], fun r hr => by rw [heq] at hr; simp at hr⟩
    case pos =>
    by_cases hcb : check_balance s lender (loan.amount + platformFee) = true
    case neg =>
      have heq : fund_loan platformFee now s loanId lender =
          (s, Except.error "Insufficient funds") := by
        simp [fund_loan, hloan, hlend, hstat, hcb]
      exact ⟨fun e he => by rw [heq], fun r hr => by rw [heq] at hr; simp at hr⟩
    case pos =>
    obtain ⟨w, hw, hble⟩ :
        ∃ w, get_wallet_by_user s lender = some w ∧
          loan.amount + platformFee ≤ w.balance := by
      unfold check_balance at hcb
      cases hwc : get_wallet_by_user s lender with
      | none =>
        rw [hwc] at hcb
        simp at hcb
      | some w =>
        rw [hwc] at hcb
        simp only [] at hcb
        exact ⟨w, rfl, by simpa [has_sufficient_balance] using hcb⟩
    have hampos : 0 < loan.amount := hamt loan (get_loan_by_id_mem s loanId loan hloan)
    have htrsuf : has_sufficient_balance w loan.amount = true := by
      simp only [has_sufficient_balance, decide_eq_true_eq]
      linarith
    have hcb1 : check_balance s lender loan.amount = true := by
      unfold check_balance
      rw [hw]
      simpa using htrsuf
    obtain ⟨v, hv⟩ := transfer_funds_ok_of_balance s lender loan.borrower
      loan.amount .LOAN_FUNDING (some ("loan_" ++ toString loan.id)) hcb1
    have hfw := transfer_funds_from_wallet s lender loan.borrower loan.amount
      .LOAN_FUNDING (some ("loan_" ++ toString loan.id)) w hw htrsuf
    have hfeeok : has_sufficient_balance
        { w with balance := if lender = loan.borrower then w.balance + loan.amount
                            else w.balance - loan.amount }
        platformFee = true := by
      by_cases heq2 : lender = loan.borrower <;>
        simp only [heq2, if_true, if_false, has_sufficient_balance,
          decide_eq_true_eq] <;>
        linarith
    have hfeq := deduct_platform_fee_ok_effects
      (transfer_funds s lender loan.borrower loan.amount .LOAN_FUNDING
        (some ("loan_" ++ toString loan.id))).1
      lender platformFee (some ("loan_" ++ toString loan.id ++ "_fee"))
      { w with balance := if lender = loan.borrower then w.balance + loan.amount
                          else w.balance - loan.amount }
      hfw hfeeok
    have hred : fund_loan platformFee now s loanId lender =
        (generate_payment_schedule
          (update_loan_row
            (create_transaction
              (update_balance
                (transfer_funds s lender loan.borrower loan.amount .LOAN_FUNDING
                  (some ("loan_" ++ toString loan.id))).1
                { w with balance := if lender = loan.borrower
                                    then w.balance + loan.amount
                                    else w.balance - loan.amount }
                platformFee .subtract)
              lender .PLATFORM_FEE (-platformFee)
              (some ("loan_" ++ toString loan.id ++ "_fee")))
            { loan with status := .FUNDED, fundedAt := some now })
          { loan with status := .FUNDED, fundedAt := some now } now,
         Except.ok { loan with status := .FUNDED, fundedAt := some now }) := by
      simp [fund_loan, hloan, hlend, hstat, hcb, hv, hfeq]
    refine ⟨fun e he => ?_, fun r hr => ?_⟩
    · rw [hred] at he
      simp at he
    · rw [hred] at hr
      simp only [] at hr
      have hres := (Except.ok.inj hr).symm
      have hwu : w.userId = lender := get_wallet_by_user_userId s lender w hw
      have htf := transfer_funds_other_tables s lender loan.borrower loan.amount
        .LOAN_FUNDING (some ("loan_" ++ toString loan.id))
      refine ⟨loan, rfl, hlend, hstat, hres, ?_, ?_, ?_, ?_⟩
      · -- loan row is FUNDED with funded_at = now
        rw [hred]
        simp only []
        have hl1 : get_loan_by_id
            (create_transaction
              (update_balance
                (transfer_funds s lender loan.borrower loan.amount .LOAN_FUNDING
                  (some ("loan_" ++ toString loan.id))).1
                { w with balance := if lender = loan.borrower
                                    then w.balance + loan.amount
                                    else w.balance - loan.amount }
                platformFee .subtract)
              lender .PLATFORM_FEE (-platformFee)
              (some ("loan_" ++ toString loan.id ++ "_fee")))
            loanId = some loan := by
          unfold get_loan_by_id
          rw [loans_create_transaction, loans_update_balance, htf.2.1]
          exact hloan
        show get_loan_by_id (update_loan_row _ _) loanId = _
        rw [get_loan_by_id_update, hl1]
        simp
      · -- the three ledger rows
        rw [hred]
        simp only []
        rw [show ∀ x : St, (generate_payment_schedule x
            { loan with status := LoanStatus.FUNDED, fundedAt := some now }
            now).txns = x.txns from fun x => rfl]
        rw [txns_update_loan_row, txns_create_transaction, txns_update_balance,
          transfer_funds_ok_txns s lender loan.borrower loan.amount .LOAN_FUNDING
            (some ("loan_" ++ toString loan.id)) w hw htrsuf]
        simp
      · -- the appended schedule
        rw [hred]
        simp only []
        rw [payments_generate, payments_update_loan_row,
          payments_create_transaction, payments_update_balance, htf.1,
          nextPaymentId_update_loan_row, nextPaymentId_create_transaction,
          nextPaymentId_update_balance, htf.2.2.2.1]
        simp
      · -- balances when borrower and lender are distinct
        intro hbne
        have hne' : lender ≠ loan.borrower := fun h => hbne h.symm
        have heff := transfer_funds_ok_effects s lender loan.borrower loan.amount
          .LOAN_FUNDING (some ("loan_" ++ toString loan.id)) w hne' hw htrsuf
        constructor
        · rw [hred]
          simp only []
          rw [walletBalance_generate, walletBalance_update_loan_row,
            walletBalance_create_transaction, walletBalance_update_balance]
          have : lender = Wallet.userId { w with
              balance := if lender = loan.borrower then w.balance + loan.amount
                         else w.balance - loan.amount } := by
            simpa using hwu.symm
          rw [if_pos this, heff.2.2.1]
          have hbal : walletBalance s lender = some w.balance := heff.2.1
          rw [hbal]
          simp only [Option.getD_some, Option.map_some']
          have : lender ≠ loan.borrower := hne'
          simp [writtenBalance, this]
        · rw [hred]
          simp only []
          rw [walletBalance_generate, walletBalance_update_loan_row,
            walletBalance_create_transaction, walletBalance_update_balance]
          have hcond : ¬ loan.borrower = Wallet.userId { w with
              balance := if lender = loan.borrower then w.balance + loan.amount
                         else w.balance - loan.amount } := by
            simpa using fun h => hbne (h.trans hwu)
          rw [if_neg hcond, heff.2.2.2.1]

/-- C2 witness: the theorem applied to `fSt` (lender 2 funding loan 2
with platform fee 10). -/
theorem fund_loan_spec_witness :
    (∀ e, (fund_loan 10 day0 fSt 2 2).2 = Except.error e →
        (fund_loan 10 day0 fSt 2 2).1 = fSt) ∧
    (∀ loanRes, (fund_loan 10 day0 fSt 2 2).2 = Except.ok loanRes →
        ∃ loan, get_loan_by_id fSt 2 = some loan ∧
          loan.lender = some 2 ∧
          loan.status = .PENDING_FUNDING ∧
          loanRes = { loan with status := .FUNDED, fundedAt := some day0 } ∧
          get_loan_by_id (fund_loan 10 day0 fSt 2 2).1 2 =
            some { loan with status := .FUNDED, fundedAt := some day0 } ∧
          (fund_loan 10 day0 fSt 2 2).1.txns =
            fSt.txns ++
              [{ walletUserId := 2, kind := .LOAN_FUNDING,
                 amount := -loan.amount,
                 referenceId := some ("loan_" ++ toString loan.id) },
               { walletUserId := loan.borrower, kind := .LOAN_FUNDING,
                 amount := loan.amount,
                 referenceId := some ("loan_" ++ toString loan.id) },
               { walletUserId := 2, kind := .PLATFORM_FEE,
                 amount := -10,
                 referenceId := some ("loan_" ++ toString loan.id ++ "_fee") }] ∧
          (fund_loan 10 day0 fSt 2 2).1.payments =
            fSt.payments ++
              schedulePayments { loan with status := .FUNDED, fundedAt := some day0 }
                day0 fSt.nextPaymentId ∧
          (loan.borrower ≠ 2 →
            walletBalance (fund_loan 10 day0 fSt 2 2).1 2 =
              some ((walletBalance fSt 2).getD 0 - loan.amount - 10) ∧
            walletBalance (fund_loan 10 day0 fSt 2 2).1 loan.borrower =
              some ((walletBalance fSt loan.borrower).getD 0 + loan.amount))) :=
  fund_loan_spec 10 day0 fSt 2 2 (by decide) (by decide)

/-! ## Claim C5 -/

theorem txnSum_append (l1 l2 : List Txn) :
    txnSum (l1 ++ l2) = txnSum l1 + txnSum l2 := by
  induction l1 with
  | nil => simp [txnSum]
  | cons t l ih => simp [txnSum, List.foldr_cons] at ih ⊢; rw [ih]; ring

theorem refSum_append (r : String) (l1 l2 : List Txn) :
    refSum r (l1 ++ l2) = refSum r l1 + refSum r l2 := by
  unfold refSum
  rw [List.filter_append, txnSum_append]

theorem feeRefSum_append (r : String) (l1 l2 : List Txn) :
    feeRefSum r (l1 ++ l2) = feeRefSum r l1 + feeRefSum r l2 := by
  unfold feeRefSum
  rw [List.filter_append, txnSum_append]

theorem RefSumInv_append (s : St) (d : List Txn) (hinv : RefSumInv s)
    (hd : BalancedDelta d) (s' : St) (hs' : s'.txns = s.txns ++ d) :
    RefSumInv s' := by
  intro r
  rw [hs', refSum_append, feeRefSum_append, hinv r, hd r]

theorem balanced_nil : BalancedDelta [] := fun _ => rfl

theorem balanced_pair (f t : Nat) (a : ℚ) (k : TxKind) (ρ : Option String) :
    BalancedDelta
      [{ walletUserId := f, kind := k, amount := -a, referenceId := ρ },
       { walletUserId := t, kind := k, amount := a, referenceId := ρ }] := by
  intro r
  unfold refSum feeRefSum txnSum
  by_cases hρ : ρ = some r <;> by_cases hk : k = TxKind.PLATFORM_FEE <;>
    simp [hρ, hk, List.filter]

theorem balanced_single_fee (u : Nat) (a : ℚ) (ρ : Option String) :
    BalancedDelta
      [{ walletUserId := u, kind := .PLATFORM_FEE, amount := -a,
         referenceId := ρ }] := by
  intro r
  unfold refSum feeRefSum txnSum
  by_cases hρ : ρ = some r <;> simp [hρ, List.filter]

theorem balanced_single_noref (u : Nat) (k : TxKind) (a : ℚ) :
    BalancedDelta
      [{ walletUserId := u, kind := k, amount := a, referenceId := none }] := by
  intro r
  unfold refSum feeRefSum txnSum
  simp [List.filter]

theorem balanced_append (d1 d2 : List Txn) (h1 : BalancedDelta d1)
    (h2 : BalancedDelta d2) : BalancedDelta (d1 ++ d2) := by
  intro r
  rw [refSum_append, feeRefSum_append, h1 r, h2 r]

theorem deposit_funds_delta (s : St) (u : Nat) (a : ℚ) :
    ∃ d, (deposit_funds s u a).1.txns = s.txns ++ d ∧ BalancedDelta d := by
  refine ⟨[{ walletUserId := u, kind := .DEPOSIT, amount := a,
             referenceId := none }], ?_, balanced_single_noref u .DEPOSIT a⟩
  cases h : get_wallet_by_user s u <;>
    simp [deposit_funds, get_or_create_wallet, h, create_transaction,
      update_balance]

theorem withdraw_funds_delta (s : St) (u : Nat) (a : ℚ) :
    ∃ d, (withdraw_funds s u a).1.txns = s.txns ++ d ∧ BalancedDelta d := by
  cases h : get_wallet_by_user s u with
  | none => exact ⟨[], by simp [withdraw_funds, h], balanced_nil⟩
  | some w =>
    by_cases hs : has_sufficient_balance w a
    · exact ⟨[{ walletUserId := u, kind := .WITHDRAWAL, amount := a,
                referenceId := none }],
        by simp [withdraw_funds, h, hs, create_transaction, update_balance],
        balanced_single_noref u .WITHDRAWAL a⟩
    · exact ⟨[], by simp [withdraw_funds, h, hs], balanced_nil⟩

theorem transfer_funds_delta (s : St) (f t : Nat) (a : ℚ) (k : TxKind)
    (r : Option String) :
    ∃ d, (transfer_funds s f t a k r).1.txns = s.txns ++ d ∧
      BalancedDelta d := by
  cases hf : get_wallet_by_user s f with
  | none =>
    refine ⟨[], ?_, balanced_nil⟩
    cases ht : get_wallet_by_user s t <;>
      simp [transfer_funds, get_or_create_wallet, hf, ht]
  | some w =>
    by_cases hs : has_sufficient_balance w a
    · exact ⟨_, transfer_funds_ok_txns s f t a k r w hf hs,
        balanced_pair f t a k r⟩
    · refine ⟨[], ?_, balanced_nil⟩
      cases ht : get_wallet_by_user s t <;>
        simp [transfer_funds, get_or_create_wallet, hf, ht, hs]

theorem deduct_platform_fee_delta (s : St) (u : Nat) (a : ℚ)
    (r : Option String) :
    ∃ d, (deduct_platform_fee s u a r).1.txns = s.txns ++ d ∧
      BalancedDelta d := by
  cases h : get_wallet_by_user s u with
  | none => exact ⟨[], by simp [deduct_platform_fee, h], balanced_nil⟩
  | some w =>
    by_cases hs : has_sufficient_balance w a
    · exact ⟨[{ walletUserId := u, kind := .PLATFORM_FEE, amount := -a,
                referenceId := r }],
        by simp [deduct_platform_fee, h, hs, create_transaction,
          update_balance],
        balanced_single_fee u a r⟩
    · exact ⟨[], by simp [deduct_platform_fee, h, hs], balanced_nil⟩

theorem create_offer_endpoint_txns (s : St) (loanId : Nat) (caller : User)
    (rate : ℚ) : (create_offer_endpoint s loanId caller rate).1.txns = s.txns := by
  rcases create_offer_endpoint_cases s loanId caller rate with
    ⟨e, he⟩ | ⟨loan, _, _, _, _, _, _, _, heq⟩
  · rw [he]
  · rw [heq]

theorem accept_offer_txns (s : St) (loanId offerId borrower : Nat) :
    (accept_offer s loanId offerId borrower).1.txns = s.txns := by
  cases hl : get_loan_by_id s loanId with
  | none => simp [accept_offer, hl]
  | some loan =>
    by_cases h1 : loan.borrower = borrower
    · by_cases h2 : loan.status = LoanStatus.REQUESTED
      · cases ho : get_offer_by_id s offerId with
        | none => simp [accept_offer, hl, h1, h2, ho]
        | some offer =>
          by_cases h3 : offer.loanId = loan.id
          · by_cases h4 : offer.accepted
            · simp [accept_offer, hl, h1, h2, ho, h3, h4]
            · simp [accept_offer, hl, h1, h2, ho, h3, h4, update_loan_row]
          · simp [accept_offer, hl, h1, h2, ho, h3]
      · simp [accept_offer, hl, h1, h2]
    · simp [accept_offer, hl, h1]

theorem check_overdue_payments_txns (today : Date) (s : St) :
    (check_overdue_payments today s).1.txns = s.txns := by
  by_cases h : (s.payments.filter (overduePred today)).length = 0 <;>
    simp [check_overdue_payments, h]

theorem transfer_funds_insufficient (s : St) (f t : Nat) (a : ℚ) (k : TxKind)
    (r : Option String) (w : Wallet)
    (hw : get_wallet_by_user s f = some w)
    (hs : has_sufficient_balance w a = false) :
    (transfer_funds s f t a k r).2 = Except.error "Insufficient funds" ∧
    (transfer_funds s f t a k r).1.txns = s.txns := by
  cases ht : get_wallet_by_user s t <;>
    simp [transfer_funds, get_or_create_wallet, hw, ht, hs]

theorem deduct_platform_fee_insufficient (s : St) (u : Nat) (a : ℚ)
    (r : Option String) (w : Wallet)
    (hw : get_wallet_by_user s u = some w)
    (hs : has_sufficient_balance w a = false) :
    deduct_platform_fee s u a r =
      (s, Except.error "Insufficient funds for platform fee") := by
  simp [deduct_platform_fee, hw, hs]

theorem txns_mark_payment (s : St) (p : Payment) (now : Date) :
    (mark_payment_as_paid s p now).txns = s.txns := rfl

theorem fund_loan_delta (fee : ℚ) (now : Date) (s : St) (loanId lender : Nat) :
    ∃ d, (fund_loan fee now s loanId lender).1.txns = s.txns ++ d ∧
      BalancedDelta d := by
  cases hloan : get_loan_by_id s loanId with
  | none => exact ⟨[], by simp [fund_loan, hloan], balanced_nil⟩
  | some loan =>
    by_cases hlend : loan.lender = some lender
    case neg => exact ⟨[], by simp [fund_loan, hloan, hlend], balanced_nil⟩
    case pos =>
    by_cases hstat : loan.status = LoanStatus.PENDING_FUNDING
    case neg => exact ⟨[], by simp [fund_loan, hloan, hlend, hstat], balanced_nil⟩
    case pos =>
    by_cases hcb : check_balance s lender (loan.amount + fee) = true
    case neg =>
      exact ⟨[], by simp [fund_loan, hloan, hlend, hstat, hcb], balanced_nil⟩
    case pos =>
    obtain ⟨w, hw⟩ : ∃ w, get_wallet_by_user s lender = some w := by
      unfold check_balance at hcb
      cases hwc : get_wallet_by_user s lender with
      | none =>
        rw [hwc] at hcb
        simp at hcb
      | some w => exact ⟨w, rfl⟩
    by_cases htr : has_sufficient_balance w loan.amount
    case neg =>
      have hins := transfer_funds_insufficient s lender loan.borrower
        loan.amount .LOAN_FUNDING (some ("loan_" ++ toString loan.id)) w hw
        (by simpa using htr)
      refine ⟨[], ?_, balanced_nil⟩
      have hfl : (fund_loan fee now s loanId lender).1 =
          (transfer_funds s lender loan.borrower loan.amount .LOAN_FUNDING
            (some ("loan_" ++ toString loan.id))).1 := by
        simp [fund_loan, hloan, hlend, hstat, hcb, hins.1]
      rw [hfl, hins.2, List.append_nil]
    case pos =>
      have hcb1 : check_balance s lender loan.amount = true := by
        unfold check_balance
        rw [hw]
        simpa using htr
      obtain ⟨v, hv⟩ := transfer_funds_ok_of_balance s lender loan.borrower
        loan.amount .LOAN_FUNDING (some ("loan_" ++ toString loan.id)) hcb1
      have htx := transfer_funds_ok_txns s lender loan.borrower loan.amount
        .LOAN_FUNDING (some ("loan_" ++ toString loan.id)) w hw htr
      have hfw := transfer_funds_from_wallet s lender loan.borrower loan.amount
        .LOAN_FUNDING (some ("loan_" ++ toString loan.id)) w hw htr
      by_cases hfs : has_sufficient_balance
        { w with balance := if lender = loan.borrower then w.balance + loan.amount
                            else w.balance - loan.amount } fee
      case pos =>
        have hfeq := deduct_platform_fee_ok_effects
          (transfer_funds s lender loan.borrower loan.amount .LOAN_FUNDING
            (some ("loan_" ++ toString loan.id))).1
          lender fee (some ("loan_" ++ toString loan.id ++ "_fee"))
          { w with balance := if lender = loan.borrower
                              then w.balance + loan.amount
                              else w.balance - loan.amount }
          hfw hfs
        refine ⟨[{ walletUserId := lender, kind := .LOAN_FUNDING,
                   amount := -loan.amount,
                   referenceId := some ("loan_" ++ toString loan.id) },
                 { walletUserId := loan.borrower, kind := .LOAN_FUNDING,
                   amount := loan.amount,
                   referenceId := some ("loan_" ++ toString loan.id) }] ++
                [{ walletUserId := lender, kind := .PLATFORM_FEE,
                   amount := -fee,
                   referenceId := some ("loan_" ++ toString loan.id ++ "_fee") }],
          ?_,
          balanced_append _ _
            (balanced_pair lender loan.borrower loan.amount .LOAN_FUNDING
              (some ("loan_" ++ toString loan.id)))
            (balanced_single_fee lender fee
              (some ("loan_" ++ toString loan.id ++ "_fee")))⟩
        have hred : fund_loan fee now s loanId lender =
            (generate_payment_schedule
              (update_loan_row
                (create_transaction
                  (update_balance
                    (transfer_funds s lender loan.borrower loan.amount
                      .LOAN_FUNDING (some ("loan_" ++ toString loan.id))).1
                    { w with balance := if lender = loan.borrower
                                        then w.balance + loan.amount
                                        else w.balance - loan.amount }
                    fee .subtract)
                  lender .PLATFORM_FEE (-fee)
                  (some ("loan_" ++ toString loan.id ++ "_fee")))
                { loan with status := .FUNDED, fundedAt := some now })
              { loan with status := .FUNDED, fundedAt := some now } now,
             Except.ok { loan with status := .FUNDED, fundedAt := some now }) := by
          simp [fund_loan, hloan, hlend, hstat, hcb, hv, hfeq]
        rw [hred]
        simp only []
        rw [txns_generate, txns_update_loan_row, txns_create_transaction,
          txns_update_balance, htx]
        simp
      case neg =>
        have hfe := deduct_platform_fee_insufficient
          (transfer_funds s lender loan.borrower loan.amount .LOAN_FUNDING
            (some ("loan_" ++ toString loan.id))).1
          lender fee (some ("loan_" ++ toString loan.id ++ "_fee"))
          { w with balance := if lender = loan.borrower
                              then w.balance + loan.amount
                              else w.balance - loan.amount }
          hfw (by simpa using hfs)
        refine ⟨[{ walletUserId := lender, kind := .LOAN_FUNDING,
                   amount := -loan.amount,
                   referenceId := some ("loan_" ++ toString loan.id) },
                 { walletUserId := loan.borrower, kind := .LOAN_FUNDING,
                   amount := loan.amount,
                   referenceId := some ("loan_" ++ toString loan.id) }],
          ?_,
          balanced_pair lender loan.borrower loan.amount .LOAN_FUNDING
            (some ("loan_" ++ toString loan.id))⟩
        have hfl : (fund_loan fee now s loanId lender).1 =
            (transfer_funds s lender loan.borrower loan.amount .LOAN_FUNDING
              (some ("loan_" ++ toString loan.id))).1 := by
          simp [fund_loan, hloan, hlend, hstat, hcb, hv, hfe]
        rw [hfl, htx]

theorem make_payment_delta (now : Date) (s : St) (loanId borrower : Nat) :
    ∃ d, (make_payment now s loanId borrower).1.txns = s.txns ++ d ∧
      BalancedDelta d := by
  cases hloan : get_loan_by_id s loanId with
  | none => exact ⟨[], by simp [make_payment, hloan], balanced_nil⟩
  | some loan =>
    by_cases h1 : loan.borrower = borrower
    case neg => exact ⟨[], by simp [make_payment, hloan, h1], balanced_nil⟩
    case pos =>
    by_cases h2 : loan.status = LoanStatus.FUNDED
    case neg => exact ⟨[], by simp [make_payment, hloan, h1, h2], balanced_nil⟩
    case pos =>
    cases hp : get_next_pending_payment s loan.id with
    | none => exact ⟨[], by simp [make_payment, hloan, h1, h2, hp], balanced_nil⟩
    | some p =>
      by_cases hcb : check_balance s borrower p.amount = true
      case neg =>
        exact ⟨[], by simp [make_payment, hloan, h1, h2, hp, hcb], balanced_nil⟩
      case pos =>
      cases hl : loan.lender with
      | none =>
        exact ⟨[], by simp [make_payment, hloan, h1, h2, hp, hcb, hl],
          balanced_nil⟩
      | some lender =>
        obtain ⟨w, hw⟩ : ∃ w, get_wallet_by_user s borrower = some w := by
          unfold check_balance at hcb
          cases hwc : get_wallet_by_user s borrower with
          | none =>
            rw [hwc] at hcb
            simp at hcb
          | some w => exact ⟨w, rfl⟩
        have htr : has_sufficient_balance w p.amount = true := by
          unfold check_balance at hcb
          rw [hw] at hcb
          simpa using hcb
        obtain ⟨v, hv⟩ := transfer_funds_ok_of_balance s borrower lender
          p.amount .LOAN_PAYMENT (some ("payment_" ++ toString p.id)) hcb
        have htx := transfer_funds_ok_txns s borrower lender p.amount
          .LOAN_PAYMENT (some ("payment_" ++ toString p.id)) w hw htr
        refine ⟨[{ walletUserId := borrower, kind := .LOAN_PAYMENT,
                   amount := -p.amount,
                   referenceId := some ("payment_" ++ toString p.id) },
                 { walletUserId := lender, kind := .LOAN_PAYMENT,
                   amount := p.amount,
                   referenceId := some ("payment_" ++ toString p.id) }],
          ?_,
          balanced_pair borrower lender p.amount .LOAN_PAYMENT
            (some ("payment_" ++ toString p.id))⟩
        have hred : make_payment now s loanId borrower =
            (if (get_all_payments_for_loan_status
                  (mark_payment_as_paid
                    (transfer_funds s borrower lender p.amount .LOAN_PAYMENT
                      (some ("payment_" ++ toString p.id))).1 p now)
                  loan.id).all_paid = true then
               update_loan_row
                 (mark_payment_as_paid
                   (transfer_funds s borrower lender p.amount .LOAN_PAYMENT
                     (some ("payment_" ++ toString p.id))).1 p now)
                 { loan with status := .COMPLETED }
             else
               mark_payment_as_paid
                 (transfer_funds s borrower lender p.amount .LOAN_PAYMENT
                   (some ("payment_" ++ toString p.id))).1 p now,
             Except.ok ({ p with status := .PAID, paidAt := some now },
               (get_all_payments_for_loan_status
                 (mark_payment_as_paid
                   (transfer_funds s borrower lender p.amount .LOAN_PAYMENT
                     (some ("payment_" ++ toString p.id))).1 p now)
                 loan.id).all_paid)) := by
          simp [make_payment, hloan, h1, h2, hp, hcb, hl, hv]
        rw [hred]
        simp only []
        by_cases hfl : (get_all_payments_for_loan_status
            (mark_payment_as_paid
              (transfer_funds s borrower lender p.amount .LOAN_PAYMENT
                (some ("payment_" ++ toString p.id))).1 p now)
            loan.id).all_paid = true
        · simp only [hfl, if_true]
          rw [txns_update_loan_row, txns_mark_payment, htx]
        · rw [if_neg hfl, txns_mark_payment, htx]

theorem applyOp_refSumInv (s : St) (op : Op) (hinv : RefSumInv s) :
    RefSumInv (applyOp s op) := by
  cases op with
  | deposit u amount =>
    obtain ⟨d, hd, hb⟩ := deposit_funds_delta s u amount
    exact RefSumInv_append s d hinv hb _ hd
  | withdraw u amount =>
    obtain ⟨d, hd, hb⟩ := withdraw_funds_delta s u amount
    exact RefSumInv_append s d hinv hb _ hd
  | transfer f t amount kind refId =>
    obtain ⟨d, hd, hb⟩ := transfer_funds_delta s f t amount kind refId
    exact RefSumInv_append s d hinv hb _ hd
  | deductFee u amount refId =>
    obtain ⟨d, hd, hb⟩ := deduct_platform_fee_delta s u amount refId
    exact RefSumInv_append s d hinv hb _ hd
  | createOffer loanId caller rate =>
    exact RefSumInv_append s [] hinv balanced_nil _
      (by
        show (create_offer_endpoint s loanId caller rate).1.txns = s.txns ++ []
        rw [create_offer_endpoint_txns, List.append_nil])
  | acceptOffer loanId offerId borrower =>
    exact RefSumInv_append s [] hinv balanced_nil _
      (by
        show (accept_offer s loanId offerId borrower).1.txns = s.txns ++ []
        rw [accept_offer_txns, List.append_nil])
  | fundLoan fee now loanId lender =>
    obtain ⟨d, hd, hb⟩ := fund_loan_delta fee now s loanId lender
    exact RefSumInv_append s d hinv hb _ hd
  | makePayment now loanId borrower =>
    obtain ⟨d, hd, hb⟩ := make_payment_delta now s loanId borrower
    exact RefSumInv_append s d hinv hb _ hd
  | sweep today =>
    exact RefSumInv_append s [] hinv balanced_nil _
      (by
        show (check_overdue_payments today s).1.txns = s.txns ++ []
        rw [check_overdue_payments_txns, List.append_nil])

/-- C5 (amended).  Starting from any store whose ledger satisfies the
invariant (in particular an empty ledger), after any sequence of core
operations the signed amounts carrying each referenceId sum to the fee
contribution for that referenceId; hence every referenceId with no
platform-fee entry — every transfer referenceId — sums to zero, while
a fee deduction's referenceId sums to the negated fee. -/
theorem ledger_refSum_spec (s : St) (ops : List Op) (hinv : RefSumInv s) :
    RefSumInv (applyOps s ops) ∧
    (∀ r : String, feeRefSum r (applyOps s ops).txns = 0 →
        refSum r (applyOps s ops).txns = 0) := by
  have hmain : RefSumInv (applyOps s ops) := by
    induction ops generalizing s with
    | nil => exact hinv
    | cons op rest ih => exact ih (applyOp s op) (applyOp_refSumInv s op hinv)
  exact ⟨hmain, fun r h0 => (hmain r).trans h0⟩

/-- C5, counterexample to the claim as stated: a platform-fee
deduction writes a single negative ledger row carrying its
referenceId, so that referenceId sums to −10, not zero. -/
theorem ledger_refsum_counterexample :
    refSum "loan_9_fee"
        (applyOps wSt1 [Op.deductFee 1 10 (some "loan_9_fee")]).txns = -10 ∧
    (-10 : ℚ) ≠ 0 := by
  constructor
  · norm_num [applyOps, applyOp, deduct_platform_fee, get_wallet_by_user,
      has_sufficient_balance, update_balance, create_transaction, refSum,
      txnSum, feeRefSum, List.filter, List.find?, List.foldl, List.foldr, wSt1]
  · norm_num

/-- C5 witness: the amended invariant holds after a deposit, a
transfer and a fee deduction run from the empty store. -/
theorem ledger_refSum_spec_witness :
    RefSumInv (applyOps
      { wallets := [], txns := [], loans := [], offers := [], payments := [],
        nextPaymentId := 1, nextOfferId := 1 }
      [Op.deposit 1 50, Op.transfer 1 2 20 .LOAN_FUNDING (some "x"),
       Op.deductFee 1 5 (some "x_fee")]) ∧
    (∀ r : String,
        feeRefSum r (applyOps
          { wallets := [], txns := [], loans := [], offers := [], payments := [],
            nextPaymentId := 1, nextOfferId := 1 }
          [Op.deposit 1 50, Op.transfer 1 2 20 .LOAN_FUNDING (some "x"),
           Op.deductFee 1 5 (some "x_fee")]).txns = 0 →
        refSum r (applyOps
          { wallets := [], txns := [], loans := [], offers := [], payments := [],
            nextPaymentId := 1, nextOfferId := 1 }
          [Op.deposit 1 50, Op.transfer 1 2 20 .LOAN_FUNDING (some "x"),
           Op.deductFee 1 5 (some "x_fee")]).txns = 0) :=
  ledger_refSum_spec
    { wallets := [], txns := [], loans := [], offers := [], payments := [],
      nextPaymentId := 1, nextOfferId := 1 }
    [Op.deposit 1 50, Op.transfer 1 2 20 .LOAN_FUNDING (some "x"),
     Op.deductFee 1 5 (some "x_fee")]
    (fun _ => rfl)

/-! ## Claim C10 -/

theorem loanStatusOf_congr (s1 s2 : St) (h : s1.loans = s2.loans) (i : Nat) :
    loanStatusOf s1 i = loanStatusOf s2 i := by
  unfold loanStatusOf get_loan_by_id
  rw [h]

theorem eq_of_mem_id_nodup (l : List Payment)
    (hnd : (l.map Payment.id).Nodup) (p q : Payment)
    (hp : p ∈ l) (hq : q ∈ l) (hid : p.id = q.id) : p = q := by
  have h1 := find?_id_of_mem_nodup l hnd p hp
  have h2 := find?_id_of_mem_nodup l hnd q hq
  rw [hid] at h1
  rw [h1] at h2
  exact Option.some.inj h2

theorem ids_nodup_append (old new : List Payment) (nextId : Nat)
    (h1 : (old.map Payment.id).Nodup) (h2 : ∀ p ∈ old, p.id < nextId)
    (h3 : (new.map Payment.id).Nodup) (h4 : ∀ q ∈ new, nextId ≤ q.id) :
    ((old ++ new).map Payment.id).Nodup := by
  rw [List.map_append]
  refine List.Nodup.append h1 h3 ?_
  intro a ha1 ha2
  obtain ⟨p, hp, rfl⟩ := List.mem_map.mp ha1
  obtain ⟨q, hq, hpq⟩ := List.mem_map.mp ha2
  have := h2 p hp
  have := h4 q hq
  omega

theorem schedulePayments_ids (l : Loan) (d : Date) (k : Nat) :
    (∀ q ∈ schedulePayments l d k, k ≤ q.id ∧ q.id < k + l.termMonths) ∧
    ((schedulePayments l d k).map Payment.id).Nodup ∧
    (∀ q ∈ schedulePayments l d k, q.loanId = l.id ∧
        q.status = PaymentStatus.PENDING) := by
  refine ⟨?_, ?_, ?_⟩
  · intro q hq
    obtain ⟨i, hi, rfl⟩ := List.mem_map.mp hq
    have hlt := List.mem_range.mp hi
    show k ≤ k + i ∧ k + i < k + l.termMonths
    omega
  · have heq : (schedulePayments l d k).map Payment.id =
        (List.range l.termMonths).map (fun i => k + i) := by
      unfold schedulePayments
      rw [List.map_map]
      rfl
    rw [heq]
    exact List.Nodup.map (fun a b h => by omega) (List.nodup_range l.termMonths)
  · intro q hq
    obtain ⟨i, hi, rfl⟩ := List.mem_map.mp hq
    exact ⟨rfl, rfl⟩

theorem deposit_funds_other (s : St) (u : Nat) (a : ℚ) :
    (deposit_funds s u a).1.payments = s.payments ∧
    (deposit_funds s u a).1.loans = s.loans ∧
    (deposit_funds s u a).1.nextPaymentId = s.nextPaymentId := by
  cases h : get_wallet_by_user s u <;>
    simp [deposit_funds, get_or_create_wallet, h, update_balance,
      create_transaction]

theorem withdraw_funds_other (s : St) (u : Nat) (a : ℚ) :
    (withdraw_funds s u a).1.payments = s.payments ∧
    (withdraw_funds s u a).1.loans = s.loans ∧
    (withdraw_funds s u a).1.nextPaymentId = s.nextPaymentId := by
  cases h : get_wallet_by_user s u with
  | none => simp [withdraw_funds, h]
  | some w =>
    by_cases hs : has_sufficient_balance w a <;>
      simp [withdraw_funds, h, hs, update_balance, create_transaction]

theorem deduct_platform_fee_other (s : St) (u : Nat) (a : ℚ)
    (r : Option String) :
    (deduct_platform_fee s u a r).1.payments = s.payments ∧
    (deduct_platform_fee s u a r).1.loans = s.loans ∧
    (deduct_platform_fee s u a r).1.nextPaymentId = s.nextPaymentId := by
  cases h : get_wallet_by_user s u with
  | none => simp [deduct_platform_fee, h]
  | some w =>
    by_cases hs : has_sufficient_balance w a <;>
      simp [deduct_platform_fee, h, hs, update_balance, create_transaction]

theorem create_offer_endpoint_other (s : St) (loanId : Nat) (caller : User)
    (rate : ℚ) :
    (create_offer_endpoint s loanId caller rate).1.payments = s.payments ∧
    (create_offer_endpoint s loanId caller rate).1.loans = s.loans ∧
    (create_offer_endpoint s loanId caller rate).1.nextPaymentId =
      s.nextPaymentId := by
  rcases create_offer_endpoint_cases s loanId caller rate with
    ⟨e, he⟩ | ⟨loan, _, _, _, _, _, _, _, heq⟩
  · rw [he]
    exact ⟨rfl, rfl, rfl⟩
  · rw [heq]
    exact ⟨rfl, rfl, rfl⟩

theorem accept_offer_evolution (L : Nat) (s : St) (loanId offerId borrower : Nat) :
    (accept_offer s loanId offerId borrower).1.payments = s.payments ∧
    (accept_offer s loanId offerId borrower).1.nextPaymentId = s.nextPaymentId ∧
    (NotCompleted L s → NotCompleted L (accept_offer s loanId offerId borrower).1) := by
  cases hl : get_loan_by_id s loanId with
  | none => exact ⟨by simp [accept_offer, hl], by simp [accept_offer, hl],
      fun h => by simpa [accept_offer, hl] using h⟩
  | some loan =>
    by_cases h1 : loan.borrower = borrower
    case neg =>
      exact ⟨by simp [accept_offer, hl, h1], by simp [accept_offer, hl, h1],
        fun h => by simpa [accept_offer, hl, h1] using h⟩
    case pos =>
    by_cases h2 : loan.status = LoanStatus.REQUESTED
    case neg =>
      exact ⟨by simp [accept_offer, hl, h1, h2], by simp [accept_offer, hl, h1, h2],
        fun h => by simpa [accept_offer, hl, h1, h2] using h⟩
    case pos =>
    cases ho : get_offer_by_id s offerId with
    | none =>
      exact ⟨by simp [accept_offer, hl, h1, h2, ho],
        by simp [accept_offer, hl, h1, h2, ho],
        fun h => by simpa [accept_offer, hl, h1, h2, ho] using h⟩
    | some offer =>
      by_cases h3 : offer.loanId = loan.id
      case neg =>
        exact ⟨by simp [accept_offer, hl, h1, h2, ho, h3],
          by simp [accept_offer, hl, h1, h2, ho, h3],
          fun h => by simpa [accept_offer, hl, h1, h2, ho, h3] using h⟩
      case pos =>
      by_cases h4 : offer.accepted
      case pos =>
        exact ⟨by simp [accept_offer, hl, h1, h2, ho, h3, h4],
          by simp [accept_offer, hl, h1, h2, ho, h3, h4],
          fun h => by simpa [accept_offer, hl, h1, h2, ho, h3, h4] using h⟩
      case neg =>
        have hred : (accept_offer s loanId offerId borrower).1 =
            update_loan_row
              { s with offers := s.offers.map fun x =>
                  if x.id = offer.id then { offer with accepted := true } else x }
              { loan with lender := some offer.lenderId,
                          annualInterestRate := offer.annualInterestRate,
                          status := .PENDING_FUNDING } := by
          simp [accept_offer, hl, h1, h2, ho, h3, h4]
        refine ⟨by rw [hred]; rfl, by rw [hred]; rfl, ?_⟩
        intro h
        rw [hred]
        unfold NotCompleted loanStatusOf
        rw [get_loan_by_id_update]
        have hsame : get_loan_by_id
            { s with offers := s.offers.map fun x =>
                if x.id = offer.id then { offer with accepted := true } else x }
            L = get_loan_by_id s L := rfl
        rw [hsame]
        cases hrow : get_loan_by_id s L with
        | none => simp
        | some row =>
          by_cases hid : row.id = loan.id
          · simp [hid]
          · simp only [Option.map_some']
            rw [if_neg (by simpa using hid)]
            unfold NotCompleted loanStatusOf at h
            rw [hrow] at h
            simpa using h

theorem map_id_of_preserve (l : List Payment) (f : Payment → Payment)
    (hf : ∀ x ∈ l, (f x).id = x.id) :
    (l.map f).map Payment.id = l.map Payment.id := by
  induction l with
  | nil => rfl
  | cons a t ih =>
    simp only [List.map_cons, List.cons.injEq]
    exact ⟨hf a (List.mem_cons_self a t),
      ih fun x hx => hf x (List.mem_cons_of_mem a hx)⟩

theorem nextPaymentId_generate (s : St) (l : Loan) (d : Date) :
    (generate_payment_schedule s l d).nextPaymentId =
      s.nextPaymentId + l.termMonths := rfl

theorem loans_generate (s : St) (l : Loan) (d : Date) :
    (generate_payment_schedule s l d).loans = s.loans := rfl

theorem loans_update_loan_row_map (s : St) (l : Loan) :
    (update_loan_row s l).loans =
      s.loans.map fun x => if x.id = l.id then l else x := rfl

theorem get_loan_by_id_generate (s : St) (l : Loan) (d : Date) (i : Nat) :
    get_loan_by_id (generate_payment_schedule s l d) i = get_loan_by_id s i := rfl

theorem get_loan_by_id_congr (s1 s2 : St) (h : s1.loans = s2.loans) (i : Nat) :
    get_loan_by_id s1 i = get_loan_by_id s2 i := by
  unfold get_loan_by_id
  rw [h]

theorem fund_loan_evolution (L : Nat) (fee : ℚ) (now : Date) (s : St)
    (loanId lender : Nat) :
    ∃ newPs,
      (fund_loan fee now s loanId lender).1.payments = s.payments ++ newPs ∧
      (newPs.map Payment.id).Nodup ∧
      (∀ q ∈ newPs, s.nextPaymentId ≤ q.id ∧
          q.id < (fund_loan fee now s loanId lender).1.nextPaymentId) ∧
      s.nextPaymentId ≤ (fund_loan fee now s loanId lender).1.nextPaymentId ∧
      (NotCompleted L s → NotCompleted L (fund_loan fee now s loanId lender).1) := by
  have triv : ∀ s' : St, s' = s →
      ∃ newPs, s'.payments = s.payments ++ newPs ∧
        (newPs.map Payment.id).Nodup ∧
        (∀ q ∈ newPs, s.nextPaymentId ≤ q.id ∧ q.id < s'.nextPaymentId) ∧
        s.nextPaymentId ≤ s'.nextPaymentId ∧
        (NotCompleted L s → NotCompleted L s') := by
    rintro s' rfl
    exact ⟨[], by simp, by simp, by simp, le_refl _, fun h => h⟩
  cases hloan : get_loan_by_id s loanId with
  | none => exact triv _ (by simp [fund_loan, hloan])
  | some loan =>
    by_cases hlend : loan.lender = some lender
    case neg => exact triv _ (by simp [fund_loan, hloan, hlend])
    case pos =>
    by_cases hstat : loan.status = LoanStatus.PENDING_FUNDING
    case neg => exact triv _ (by simp [fund_loan, hloan, hlend, hstat])
    case pos =>
    by_cases hcb : check_balance s lender (loan.amount + fee) = true
    case neg => exact triv _ (by simp [fund_loan, hloan, hlend, hstat, hcb])
    case pos =>
    obtain ⟨w, hw⟩ : ∃ w, get_wallet_by_user s lender = some w := by
      unfold check_balance at hcb
      cases hwc : get_wallet_by_user s lender with
      | none =>
        rw [hwc] at hcb
        simp at hcb
      | some w => exact ⟨w, rfl⟩
    have htf := transfer_funds_other_tables s lender loan.borrower loan.amount
      .LOAN_FUNDING (some ("loan_" ++ toString loan.id))
    have htriv2 : ∀ s' : St,
        s' = (transfer_funds s lender loan.borrower loan.amount .LOAN_FUNDING
          (some ("loan_" ++ toString loan.id))).1 →
        ∃ newPs, s'.payments = s.payments ++ newPs ∧
          (newPs.map Payment.id).Nodup ∧
          (∀ q ∈ newPs, s.nextPaymentId ≤ q.id ∧ q.id < s'.nextPaymentId) ∧
          s.nextPaymentId ≤ s'.nextPaymentId ∧
          (NotCompleted L s → NotCompleted L s') := by
      rintro s' rfl
      refine ⟨[], by simp [htf.1], by simp, by simp, by rw [htf.2.2.2.1], ?_⟩
      intro h
      unfold NotCompleted at h ⊢
      rw [loanStatusOf_congr _ s htf.2.1 L]
      exact h
    by_cases htr : has_sufficient_balance w loan.amount
    case neg =>
      have hins := transfer_funds_insufficient s lender loan.borrower
        loan.amount .LOAN_FUNDING (some ("loan_" ++ toString loan.id)) w hw
        (by simpa using htr)
      exact htriv2 _ (by simp [fund_loan, hloan, hlend, hstat, hcb, hins.1])
    case pos =>
      have hcb1 : check_balance s lender loan.amount = true := by
        unfold check_balance
        rw [hw]
        simpa using htr
      obtain ⟨v, hv⟩ := transfer_funds_ok_of_balance s lender loan.borrower
        loan.amount .LOAN_FUNDING (some ("loan_" ++ toString loan.id)) hcb1
      have hfw := transfer_funds_from_wallet s lender loan.borrower loan.amount
        .LOAN_FUNDING (some ("loan_" ++ toString loan.id)) w hw htr
      by_cases hfs : has_sufficient_balance
        { w with balance := if lender = loan.borrower then w.balance + loan.amount
                            else w.balance - loan.amount } fee
      case neg =>
        have hfe := deduct_platform_fee_insufficient
          (transfer_funds s lender loan.borrower loan.amount .LOAN_FUNDING
            (some ("loan_" ++ toString loan.id))).1
          lender fee (some ("loan_" ++ toString loan.id ++ "_fee"))
          { w with balance := if lender = loan.borrower
                              then w.balance + loan.amount
                              else w.balance - loan.amount }
          hfw (by simpa using hfs)
        exact htriv2 _ (by simp [fund_loan, hloan, hlend, hstat, hcb, hv, hfe])
      case pos =>
        have hfeq := deduct_platform_fee_ok_effects
          (transfer_funds s lender loan.borrower loan.amount .LOAN_FUNDING
            (some ("loan_" ++ toString loan.id))).1
          lender fee (some ("loan_" ++ toString loan.id ++ "_fee"))
          { w with balance := if lender = loan.borrower
                              then w.balance + loan.amount
                              else w.balance - loan.amount }
          hfw hfs
        have hred : fund_loan fee now s loanId lender =
            (generate_payment_schedule
              (update_loan_row
                (create_transaction
                  (update_balance
                    (transfer_funds s lender loan.borrower loan.amount
                      .LOAN_FUNDING (some ("loan_" ++ toString loan.id))).1
                    { w with balance := if lender = loan.borrower
                                        then w.balance + loan.amount
                                        else w.balance - loan.amount }
                    fee .subtract)
                  lender .PLATFORM_FEE (-fee)
                  (some ("loan_" ++ toString loan.id ++ "_fee")))
                { loan with status := .FUNDED, fundedAt := some now })
              { loan with status := .FUNDED, fundedAt := some now } now,
             Except.ok { loan with status := .FUNDED, fundedAt := some now }) := by
          simp [fund_loan, hloan, hlend, hstat, hcb, hv, hfeq]
        have hsch := schedulePayments_ids
          { loan with status := LoanStatus.FUNDED, fundedAt := some now }
          now s.nextPaymentId
        refine ⟨schedulePayments
            { loan with status := LoanStatus.FUNDED, fundedAt := some now }
            now s.nextPaymentId, ?_, hsch.2.1, ?_, ?_, ?_⟩
        · rw [hred]
          simp only []
          rw [payments_generate, payments_update_loan_row,
            payments_create_transaction, payments_update_balance, htf.1,
            nextPaymentId_update_loan_row, nextPaymentId_create_transaction,
            nextPaymentId_update_balance, htf.2.2.2.1]
          simp
        · intro q hq
          have hb := hsch.1 q hq
          rw [hred]
          simp only []
          rw [nextPaymentId_generate, nextPaymentId_update_loan_row,
            nextPaymentId_create_transaction, nextPaymentId_update_balance,
            htf.2.2.2.1]
          exact ⟨hb.1, by simpa using hb.2⟩
        · rw [hred]
          simp only []
          rw [nextPaymentId_generate, nextPaymentId_update_loan_row,
            nextPaymentId_create_transaction, nextPaymentId_update_balance,
            htf.2.2.2.1]
          omega
        · intro h
          rw [hred]
          unfold NotCompleted loanStatusOf
          simp only []
          rw [get_loan_by_id_generate, get_loan_by_id_update]
          rw [get_loan_by_id_congr _ s
            (by rw [loans_create_transaction, loans_update_balance, htf.2.1]) L]
          cases hrow : get_loan_by_id s L with
          | none => simp
          | some row =>
            by_cases hid : row.id = loan.id
            · simp [hid]
            · simp only [Option.map_some']
              rw [if_neg (by simpa using hid)]
              unfold NotCompleted loanStatusOf at h
              rw [hrow] at h
              simpa using h

theorem make_payment_evolution (L : Nat) (now : Date) (s : St)
    (loanId borrower : Nat)
    (hnd : (s.payments.map Payment.id).Nodup) :
    (make_payment now s loanId borrower).1.payments.map Payment.id =
        s.payments.map Payment.id ∧
    (make_payment now s loanId borrower).1.nextPaymentId = s.nextPaymentId ∧
    (∀ p ∈ s.payments, p.status = PaymentStatus.OVERDUE →
        p ∈ (make_payment now s loanId borrower).1.payments) ∧
    (OverdueWitness L s → NotCompleted L s →
        NotCompleted L (make_payment now s loanId borrower).1) := by
  have triv : ∀ s' : St, s' = s →
      s'.payments.map Payment.id = s.payments.map Payment.id ∧
      s'.nextPaymentId = s.nextPaymentId ∧
      (∀ p ∈ s.payments, p.status = PaymentStatus.OVERDUE → p ∈ s'.payments) ∧
      (OverdueWitness L s → NotCompleted L s → NotCompleted L s') := by
    rintro s' rfl
    exact ⟨rfl, rfl, fun p hp _ => hp, fun _ h => h⟩
  cases hloan : get_loan_by_id s loanId with
  | none => exact triv _ (by simp [make_payment, hloan])
  | some loan =>
    by_cases h1 : loan.borrower = borrower
    case neg => exact triv _ (by simp [make_payment, hloan, h1])
    case pos =>
    by_cases h2 : loan.status = LoanStatus.FUNDED
    case neg => exact triv _ (by simp [make_payment, hloan, h1, h2])
    case pos =>
    cases hp : get_next_pending_payment s loan.id with
    | none => exact triv _ (by simp [make_payment, hloan, h1, h2, hp])
    | some p =>
      have hpmem0 : p ∈ s.payments.filter
          fun q => decide (q.loanId = loan.id ∧ q.status = .PENDING) := by
        unfold get_next_pending_payment at hp
        exact minByPaymentNumber_mem _ _ hp
      have hpmem : p ∈ s.payments := (List.mem_filter.mp hpmem0).1
      have hppend : p.status = PaymentStatus.PENDING := by
        have := (List.mem_filter.mp hpmem0).2
        simp at this
        exact this.2
      by_cases hcb : check_balance s borrower p.amount = true
      case neg => exact triv _ (by simp [make_payment, hloan, h1, h2, hp, hcb])
      case pos =>
      cases hl : loan.lender with
      | none => exact triv _ (by simp [make_payment, hloan, h1, h2, hp, hcb, hl])
      | some lender =>
        obtain ⟨v, hv⟩ := transfer_funds_ok_of_balance s borrower lender
          p.amount .LOAN_PAYMENT (some ("payment_" ++ toString p.id)) hcb
        have htf := transfer_funds_other_tables s borrower lender p.amount
          .LOAN_PAYMENT (some ("payment_" ++ toString p.id))
        have hred : (make_payment now s loanId borrower).1 =
            (if (get_all_payments_for_loan_status
                  (mark_payment_as_paid
                    (transfer_funds s borrower lender p.amount .LOAN_PAYMENT
                      (some ("payment_" ++ toString p.id))).1 p now)
                  loan.id).all_paid = true then
               update_loan_row
                 (mark_payment_as_paid
                   (transfer_funds s borrower lender p.amount .LOAN_PAYMENT
                     (some ("payment_" ++ toString p.id))).1 p now)
                 { loan with status := .COMPLETED }
             else
               mark_payment_as_paid
                 (transfer_funds s borrower lender p.amount .LOAN_PAYMENT
                   (some ("payment_" ++ toString p.id))).1 p now) := by
          simp [make_payment, hloan, h1, h2, hp, hcb, hl, hv]
        have hs2pay : (mark_payment_as_paid
            (transfer_funds s borrower lender p.amount .LOAN_PAYMENT
              (some ("payment_" ++ toString p.id))).1 p now).payments =
            s.payments.map fun x =>
              if x.id = p.id then { p with status := .PAID, paidAt := some now }
              else x := by
          unfold mark_payment_as_paid
          rw [htf.1]
        have hs2loans : (mark_payment_as_paid
            (transfer_funds s borrower lender p.amount .LOAN_PAYMENT
              (some ("payment_" ++ toString p.id))).1 p now).loans = s.loans := by
          unfold mark_payment_as_paid
          simp only []
          exact htf.2.1
        have hstatepay : (make_payment now s loanId borrower).1.payments =
            s.payments.map fun x =>
              if x.id = p.id then { p with status := .PAID, paidAt := some now }
              else x := by
          rw [hred]
          by_cases hfl : (get_all_payments_for_loan_status
              (mark_payment_as_paid
                (transfer_funds s borrower lender p.amount .LOAN_PAYMENT
                  (some ("payment_" ++ toString p.id))).1 p now)
              loan.id).all_paid = true
          · rw [if_pos hfl, payments_update_loan_row, hs2pay]
          · rw [if_neg hfl, hs2pay]
        have hsurv : ∀ q ∈ s.payments, q.status = PaymentStatus.OVERDUE →
            q ∈ (make_payment now s loanId borrower).1.payments := by
          intro q hq hov
          rw [hstatepay]
          refine List.mem_map.mpr ⟨q, hq, ?_⟩
          have hne : ¬ q.id = p.id := by
            intro hide
            have := eq_of_mem_id_nodup s.payments hnd q p hq hpmem hide
            rw [this] at hov
            rw [hppend] at hov
            exact PaymentStatus.noConfusion hov
          rw [if_neg hne]
        refine ⟨?_, ?_, hsurv, ?_⟩
        · rw [hstatepay]
          exact map_id_of_preserve s.payments _ fun x _ => by
            by_cases hx : x.id = p.id <;> simp [hx]
        · rw [hred]
          by_cases hfl : (get_all_payments_for_loan_status
              (mark_payment_as_paid
                (transfer_funds s borrower lender p.amount .LOAN_PAYMENT
                  (some ("payment_" ++ toString p.id))).1 p now)
              loan.id).all_paid = true
          · rw [if_pos hfl, nextPaymentId_update_loan_row]
            exact htf.2.2.2.1
          · rw [if_neg hfl]
            exact htf.2.2.2.1
        · intro hov hnc
          rw [hred]
          by_cases hfl : (get_all_payments_for_loan_status
              (mark_payment_as_paid
                (transfer_funds s borrower lender p.amount .LOAN_PAYMENT
                  (some ("payment_" ++ toString p.id))).1 p now)
              loan.id).all_paid = true
          · rw [if_pos hfl]
            unfold NotCompleted loanStatusOf
            rw [get_loan_by_id_update]
            rw [get_loan_by_id_congr _ s hs2loans L]
            cases hrow : get_loan_by_id s L with
            | none => simp
            | some row =>
              by_cases hid : row.id = loan.id
              · exfalso
                have hLid : loan.id = L := by
                  rw [← hid]
                  exact get_loan_by_id_id s L row hrow
                obtain ⟨q, hq, hqL, hqov⟩ := hov
                have hall := (all_paid_iff _ loan.id).mp hfl
                have hqmem2 : q ∈ paymentsForLoan
                    (mark_payment_as_paid
                      (transfer_funds s borrower lender p.amount .LOAN_PAYMENT
                        (some ("payment_" ++ toString p.id))).1 p now)
                    loan.id := by
                  unfold paymentsForLoan
                  rw [hs2pay]
                  refine List.mem_filter.mpr ⟨List.mem_map.mpr ⟨q, hq, ?_⟩, ?_⟩
                  · have hne : ¬ q.id = p.id := by
                      intro hide
                      have := eq_of_mem_id_nodup s.payments hnd q p hq hpmem hide
                      rw [this] at hqov
                      rw [hppend] at hqov
                      exact PaymentStatus.noConfusion hqov
                    rw [if_neg hne]
                  · simp [hqL, hLid]
                have := hall.1 q hqmem2
                rw [hqov] at this
                exact PaymentStatus.noConfusion this
              · simp only [Option.map_some']
                rw [if_neg (by simpa using hid)]
                unfold NotCompleted loanStatusOf at hnc
                rw [hrow] at hnc
                simpa using hnc
          · rw [if_neg hfl]
            unfold NotCompleted loanStatusOf at hnc ⊢
            rw [get_loan_by_id_congr _ s hs2loans L]
            exact hnc

theorem sweep_evolution (today : Date) (s : St) :
    (check_overdue_payments today s).1.payments.map Payment.id =
        s.payments.map Payment.id ∧
    (check_overdue_payments today s).1.nextPaymentId = s.nextPaymentId ∧
    (∀ p ∈ s.payments, p.status = PaymentStatus.OVERDUE →
        p ∈ (check_overdue_payments today s).1.payments) ∧
    (check_overdue_payments today s).1.loans = s.loans := by
  by_cases h : (s.payments.filter (overduePred today)).length = 0
  · have heq : (check_overdue_payments today s).1 = s := by
      simp [check_overdue_payments, h]
    rw [heq]
    exact ⟨rfl, rfl, fun p hp _ => hp, rfl⟩
  · have heq : (check_overdue_payments today s).1 =
        { s with payments := s.payments.map fun p =>
            if overduePred today p then { p with status := .OVERDUE } else p } := by
      simp [check_overdue_payments, h]
    rw [heq]
    refine ⟨?_, rfl, ?_, rfl⟩
    · exact map_id_of_preserve s.payments _ fun x _ => by
        by_cases hx : overduePred today x <;> simp [hx]
    · intro p hp hov
      refine List.mem_map.mpr ⟨p, hp, ?_⟩
      have : overduePred today p = false := by
        simp [overduePred, hov]
      rw [this]
      simp

theorem C10Inv_of_evolution (L : Nat) (s s' : St)
    (hid : s'.payments.map Payment.id = s.payments.map Payment.id)
    (hn : s'.nextPaymentId = s.nextPaymentId)
    (hsurv : ∀ p ∈ s.payments, p.status = PaymentStatus.OVERDUE →
        p ∈ s'.payments)
    (hncp : NotCompleted L s → NotCompleted L s')
    (h : C10Inv L s) : C10Inv L s' := by
  obtain ⟨⟨hnd, hlt⟩, hov, hnc⟩ := h
  refine ⟨⟨by rw [hid]; exact hnd, ?_⟩, ?_, hncp hnc⟩
  · intro p hpm
    have hmem : p.id ∈ s'.payments.map Payment.id :=
      List.mem_map.mpr ⟨p, hpm, rfl⟩
    rw [hid] at hmem
    obtain ⟨q, hq, hqe⟩ := List.mem_map.mp hmem
    rw [hn, ← hqe]
    exact hlt q hq
  · obtain ⟨q, hq, h1, h2⟩ := hov
    exact ⟨q, hsurv q hq h2, h1, h2⟩

theorem C10Inv_of_same (L : Nat) (s s' : St)
    (hp : s'.payments = s.payments) (hl : s'.loans = s.loans)
    (hn : s'.nextPaymentId = s.nextPaymentId)
    (h : C10Inv L s) : C10Inv L s' := by
  refine C10Inv_of_evolution L s s' (by rw [hp]) hn
    (fun p hpm _ => by rw [hp]; exact hpm) ?_ h
  intro hnc
  unfold NotCompleted at hnc ⊢
  rw [loanStatusOf_congr s' s hl]
  exact hnc

theorem applyOp_C10Inv (L : Nat) (s : St) (op : Op) (h : C10Inv L s) :
    C10Inv L (applyOp s op) := by
  cases op with
  | deposit u a =>
    have ho := deposit_funds_other s u a
    exact C10Inv_of_same L s _ ho.1 ho.2.1 ho.2.2 h
  | withdraw u a =>
    have ho := withdraw_funds_other s u a
    exact C10Inv_of_same L s _ ho.1 ho.2.1 ho.2.2 h
  | transfer f t a k r =>
    have ho := transfer_funds_other_tables s f t a k r
    exact C10Inv_of_same L s _ ho.1 ho.2.1 ho.2.2.2.1 h
  | deductFee u a r =>
    have ho := deduct_platform_fee_other s u a r
    exact C10Inv_of_same L s _ ho.1 ho.2.1 ho.2.2 h
  | createOffer loanId caller rate =>
    have ho := create_offer_endpoint_other s loanId caller rate
    exact C10Inv_of_same L s _ ho.1 ho.2.1 ho.2.2 h
  | acceptOffer loanId offerId borrower =>
    show C10Inv L (accept_offer s loanId offerId borrower).1
    have ho := accept_offer_evolution L s loanId offerId borrower
    exact C10Inv_of_evolution L s _ (by rw [ho.1]) ho.2.1
      (fun p hpm _ => by rw [ho.1]; exact hpm) ho.2.2 h
  | fundLoan fee now loanId lender =>
    show C10Inv L (fund_loan fee now s loanId lender).1
    obtain ⟨⟨hnd, hlt⟩, hov, hnc⟩ := h
    obtain ⟨newPs, hpay, hnodup, hbound, hle, hncp⟩ :=
      fund_loan_evolution L fee now s loanId lender
    refine ⟨⟨?_, ?_⟩, ?_, hncp hnc⟩
    · rw [hpay]
      exact ids_nodup_append s.payments newPs s.nextPaymentId hnd hlt hnodup
        fun q hq => (hbound q hq).1
    · intro p hpm
      rw [hpay] at hpm
      rcases List.mem_append.mp hpm with hold | hnew
      · exact lt_of_lt_of_le (hlt p hold) hle
      · exact (hbound p hnew).2
    · obtain ⟨q, hq, h1, h2⟩ := hov
      exact ⟨q, by rw [hpay]; exact List.mem_append_left _ hq, h1, h2⟩
  | makePayment now loanId borrower =>
    obtain ⟨⟨hnd, hlt⟩, hov, hnc⟩ := h
    have ho := make_payment_evolution L now s loanId borrower hnd
    exact C10Inv_of_evolution L s _ ho.1 ho.2.1 ho.2.2.1
      (fun hnc2 => ho.2.2.2 hov hnc2) ⟨⟨hnd, hlt⟩, hov, hnc⟩
  | sweep today =>
    show C10Inv L (check_overdue_payments today s).1
    have ho := sweep_evolution today s
    refine C10Inv_of_evolution L s _ ho.1 ho.2.1 ho.2.2.1 ?_ h
    intro hnc
    unfold NotCompleted at hnc ⊢
    rw [loanStatusOf_congr _ s ho.2.2.2]
    exact hnc

theorem applyOps_C10Inv (L : Nat) (s : St) (ops : List Op)
    (h : C10Inv L s) : C10Inv L (applyOps s ops) := by
  induction ops generalizing s with
  | nil => exact h
  | cons op t ih => exact ih (applyOp s op) (applyOp_C10Inv L s op h)

/-- C10.  In every store whose payment ids are well-formed, once some
payment of loan `L` is OVERDUE and `L` is not COMPLETED, no sequence of
core operations (deposits, withdrawals, transfers, fee deductions,
offer creation or acceptance, loan funding, repayments, overdue sweeps)
can make loan `L` COMPLETED: the sweep never rewrites OVERDUE rows back
to PENDING, `get_next_pending_payment` only ever selects PENDING rows,
so the OVERDUE row survives every operation and
`get_all_payments_for_loan_status(...)['all_paid']` stays false for
`L`, which is the only gate to the COMPLETED write in `make_payment`. -/
theorem overdue_blocks_completion (L : Nat) (s : St) (ops : List Op)
    (hwf : PaymentsWF s) (hov : OverdueWitness L s)
    (hnc : NotCompleted L s) :
    OverdueWitness L (applyOps s ops) ∧ NotCompleted L (applyOps s ops) :=
  ⟨(applyOps_C10Inv L s ops ⟨hwf, hov, hnc⟩).2.1,
   (applyOps_C10Inv L s ops ⟨hwf, hov, hnc⟩).2.2⟩

/-- C10 witness: the theorem applied to `c10St` and a trace that sweeps
and then lets borrower 1 attempt a repayment of loan 1. -/
theorem overdue_blocks_completion_witness :
    OverdueWitness 1 (applyOps c10St [Op.sweep day0, Op.makePayment day0 1 1]) ∧
    NotCompleted 1 (applyOps c10St [Op.sweep day0, Op.makePayment day0 1 1]) :=
  overdue_blocks_completion 1 c10St [Op.sweep day0, Op.makePayment day0 1 1]
    (by decide) (by decide) (by decide)

theorem accept_offer_at_seq (s : St) (loanId offerId borrower : Nat) :
    accept_offer_at s s loanId offerId borrower =
      accept_offer s loanId offerId borrower := rfl

/-- C7: the interleaving the spec's compare-and-set is meant to defeat.
Both concurrent `accept_offer` calls on distinct offers of REQUESTED
loan 1 read before either commits; the code re-checks nothing at write
time (`update_loan` is an unconditional `save()` with no
`select_for_update` and no conditional UPDATE), so both calls return
success, both offers end accepted, and the final lender is simply the
last writer's (lender 3), not a unique winner's. -/
theorem accept_offer_race_both_succeed :
    (accept_offer_at rSt rSt 1 1 1).2 = Except.ok () ∧
    (accept_offer_at rSt (accept_offer_at rSt rSt 1 1 1).1 1 2 1).2 =
      Except.ok () ∧
    (get_loan_by_id
        (accept_offer_at rSt (accept_offer_at rSt rSt 1 1 1).1 1 2 1).1
        1).map Loan.lender = some (some 3) ∧
    (get_loan_by_id
        (accept_offer_at rSt (accept_offer_at rSt rSt 1 1 1).1 1 2 1).1
        1).map Loan.status = some LoanStatus.PENDING_FUNDING ∧
    ∀ o ∈ (accept_offer_at rSt (accept_offer_at rSt rSt 1 1 1).1 1 2 1).1.offers,
      o.accepted = true := by
  refine ⟨rfl, rfl, rfl, rfl, ?_⟩
  decide
